import Mathlib

/-!
# TensorRTNetwork

A shallow embedding of `source/tnn/network/tensorrt/tensorrt_network.cc`:
`TensorRTNetwork::Init`, `InitLayers`, `CreateExecuteContext`, `GetCacheFileName`,
`Forward` and `ForwardAsync`.

The object's fields and everything its collaborators keep (the blob registry, the files on
disk) are explicit state in a `Machine`; the calls that leave the translation unit and act on
a collaborator are appended to `Machine.trace`. What the collaborators answer is read from an
`Env`, over which the theorems quantify. Status values are their integer codes.

Not represented: the message of a status and the log output; deallocation (`delete`,
`destroy`) other than that of the `ExclFile`; failures of the file streams other than a cache
file that cannot be opened; null results of `createInferBuilder`, `createNetwork`, `addInput`,
`AddToNetwork`, `getOutput`, `serialize`, `createInferRuntime` and
`createExecutionContextWithoutDeviceMemory`. `Forward` and `ForwardAsync` are taken on an
object whose `m_trt_context` and `context_` are set.
-/

namespace TNN

/-! ## Declarations taken from headers -/

/-- The content of a file, and of a serialized engine. -/
abbrev Bytes := List Nat

/-- A handle on an `nvinfer1::ITensor`. -/
abbrev ITensor := Nat

/-- A handle on an `nvinfer1::ILayer`. -/
abbrev ILayer := Nat

/-- What `tnn/core/status.h` and `tnn/core/macro.h` declare and this file uses. Neither header
is among the sources, so the enumerators, the status `CHECK_PARAM_NULL` returns on a null
argument, and the conversion of a `Status` to `bool` are parameters of the model. -/
structure StatusDecl where
  TNN_OK : Int
  TNNERR_PARAM_ERR : Int
  TNNERR_NULL_PARAM : Int
  TNNERR_DEVICE_NOT_SUPPORT : Int
  TNNERR_CUDA_TENSORRT_ERROR : Int
  CHECK_PARAM_NULL : Int
  toBool : Int → Bool

/-- The integral conversion of a `bool`, applied when a `bool` is compared with an enumerator
or handed to `Status(int code, ...)`. -/
def boolToInt (b : Bool) : Int := if b then 1 else 0

/-- `BlobDesc`: the fields read here. -/
structure BlobDesc where
  name : String
  dims : List Int
  deriving DecidableEq, Repr

/-- Modelled from the spec: the two concrete forms of a Blob, "host/device-generic Blob, and
ForeignBlob — a Blob decorated with an accelerator-native tensor handle"; `foreign_blob.h` is
not among the sources. `foreign blob tensor` is `new ForeignBlob(blob)` after
`SetForeignTensor`; `tensor` is the `ITensor` the `TensorRTTensor` holds, if any. -/
inductive Blob where
  | plain (desc : BlobDesc) (base : Nat)
  | foreign (blob : Blob) (tensor : Option ITensor)
  deriving DecidableEq, Repr

/-- `Blob::GetBlobDesc`; a ForeignBlob carries the description of the blob it decorates. -/
def Blob.GetBlobDesc : Blob → BlobDesc
  | .plain desc _ => desc
  | .foreign blob _ => blob.GetBlobDesc

/-- `Blob::GetHandle().base`. -/
def Blob.base : Blob → Nat
  | .plain _ base => base
  | .foreign blob _ => blob.base

/-- `LayerInfo`: the fields read by `InitLayers`. -/
structure LayerInfo where
  type : Nat
  name : String
  inputs : List String
  outputs : List String
  deriving DecidableEq, Repr

/-- `NetStructure`. -/
structure NetStructure where
  layers : List LayerInfo
  deriving DecidableEq, Repr

/-- `NetResource`: `resource_map`, from layer name to a handle on its `LayerResource`. -/
structure NetResource where
  resource_map : List (String × Nat)
  deriving DecidableEq, Repr

/-- What `dynamic_cast<DefaultModelInterpreter *>(interpreter)` can meet: a null pointer, an
interpreter of another class, or a default interpreter with its `GetNetStructure()` and
`GetNetResource()` (each possibly null). -/
inductive Interpreter where
  | null
  | other
  | default (net_structure : Option NetStructure) (net_resource : Option NetResource)
  deriving DecidableEq, Repr

/-- `NetworkConfig`: the field read by `Init`. -/
structure NetworkConfig where
  device_type : Nat
  deriving DecidableEq, Repr

/-- A layer builder as `InitLayers` leaves it: its name and the arguments of its `Init`.
`GetOutputBlobs()` is `outputs`; an entry is `none` for a null `Blob*`. -/
structure LayerBuilder where
  type : Nat
  name : String
  resource : Option Nat
  inputs : List (Option Blob)
  outputs : List (Option Blob)
  deriving DecidableEq, Repr

/-- An `ICudaEngine`: the names of its bindings, in index order, and what `serialize()`
returns. -/
structure Engine where
  bindingNames : List String
  serialized : Bytes
  deriving DecidableEq, Repr

/-- `ICudaEngine::getNbBindings`. -/
def Engine.getNbBindings (e : Engine) : Nat := e.bindingNames.length

/-- `ICudaEngine::getBindingIndex`: the index of the binding of that name, `-1` when the engine
has none. -/
def Engine.getBindingIndex (e : Engine) (name : String) : Int :=
  if name ∈ e.bindingNames then (e.bindingNames.indexOf name : Int) else -1

/-- An `IExecutionContext` with the device memory handed to `setDeviceMemory`. -/
structure ExecutionContext where
  engine : Engine
  deviceMemory : Nat
  deriving DecidableEq, Repr

/-- Modelled from the spec: the blob manager ("blob creation/lookup/replace-by-name, total blob
memory allocation, enumeration of input/output blobs, and scratch-memory size/pointer for the
execution context"); `TensorRTBlobManager` is not among the sources. `blobs` is the registry,
`input_blobs` and `output_blobs` are the values of the maps that `GetAllInputBlobs` and
`GetAllOutputBlobs` fill, all non-null, in iteration order (the code never reads their keys),
and the three statuses are what `AllocateBlobMemory`, `GetAllInputBlobs` and
`GetAllOutputBlobs` return. -/
structure BlobManager where
  blobs : List (String × Blob)
  input_blobs : List Blob
  output_blobs : List Blob
  AllocateBlobMemory : Int
  GetAllInputBlobs : Int
  GetAllOutputBlobs : Int
  GetContextMemory : Nat
  deriving DecidableEq, Repr

/-- Modelled from the spec: lookup by name in the blob registry; `none` is the null pointer
returned for a name the registry does not know. -/
def BlobManager.GetBlob (bm : BlobManager) (name : String) : Option Blob :=
  bm.blobs.lookup name

/-- Modelled from the spec: "once a name is rebound to a ForeignBlob, all subsequent lookups of
that name return the ForeignBlob, never the original." -/
def BlobManager.ReplaceBlob (bm : BlobManager) (name : String) (blob : Blob) : BlobManager :=
  { bm with blobs := (name, blob) :: bm.blobs }

/-! ## State -/

/-- The calls that leave the translation unit and act on a collaborator, with the arguments the
claims speak about. Queries (`GetBlob`, `GetAllInputBlobs`, `GetAllOutputBlobs`, `Ready`,
`getNbBindings`, `getBindingIndex`, `serialize`) and `ReplaceBlob`, whose effect is in the
registry, are not logged. -/
inductive Event where
  | GetDevice (device_type : Nat)
  | newBlobManager
  | CreateLayerBuilder (type : Nat)
  | layerInit (cur_layer : LayerBuilder)
  | AllocateBlobMemory
  | newExclFile (file_name : String)
  | deleteExclFile (file_name : String)
  | createInferBuilder
  | createNetwork
  | addInput (name : String) (c h w : Int)
  | AddToNetwork (layer_id : Nat)
  | markOutput (tensor : ITensor)
  | setMaxBatchSize (n : Int)
  | buildCudaEngine
  | createExecutionContext
  | setDeviceMemory (device_memory : Nat)
  | writeFile (file_name : String) (bytes : Bytes)
  | deserializeCudaEngine (model_stream : Bytes) (size : Nat) (pluginFactory : Bool)
  | storeBinding (index : Int) (base : Nat)
  | enqueue (batchSize : Int) (bindings : List (Option Nat)) (stream : Nat)
  | Synchronize
  deriving DecidableEq, Repr

/-- The fields of a `TensorRTNetwork`. `stream` is the stream of the `CudaContext` that
`context_` points to; `m_trt_bindings` is the array allocated by `Init`, an entry being `none`
until it is written. -/
structure TensorRTNetwork where
  device_ : Option Nat
  blob_manager_ : Bool
  layers_ : List LayerBuilder
  m_max_batchsize : Int
  m_trt_builder : Bool
  m_trt_network : Bool
  m_trt_engine : Option Engine
  m_trt_context : Option ExecutionContext
  m_trt_bindings : List (Option Nat)
  stream : Nat
  deriving DecidableEq, Repr

/-- The network object, the blob manager `blob_manager_` points to (meaningful once `Init` has
created it), the files on disk and the calls made so far. -/
structure Machine where
  net : TensorRTNetwork
  manager : BlobManager
  files : List (String × Bytes)
  trace : List Event
  deriving DecidableEq, Repr

/-- What the collaborators answer. `blobManagerInit` is the status of `blob_manager_->Init` and
`blobManager` the manager it leaves; `CreateTensorRTBaseLayerBuilder` tells whether a builder
exists for a layer type; `layerInit` is the status of a builder's `Init` on its arguments;
`Ready` is `ExclFile::Ready`; `buildCudaEngine` and `deserializeCudaEngine` answer `none` for a
null engine. -/
structure Env where
  GetDevice : Nat → Option Nat
  blobManagerInit : Int
  blobManager : BlobManager
  CreateTensorRTBaseLayerBuilder : Nat → Bool
  layerInit : LayerBuilder → Int
  Ready : Bool
  addInput : String → ITensor
  AddToNetwork : Nat → LayerBuilder → ILayer
  getOutput : ILayer → Nat → ITensor
  buildCudaEngine : Option Engine
  deserializeCudaEngine : Bytes → Option Engine
  enqueue : Int → List (Option Nat) → Nat → Bool
  Synchronize : Int

/-- Why a run stops without returning a status. -/
inductive Fault where
  | vectorIndex
  | nullPointer
  | badAlloc
  deriving DecidableEq, Repr

/-- How a call of `Init` ends: with a returned status, or stopped by a fault (an element read
past the end of `dims`, a member called through a null pointer, `std::bad_alloc`). -/
inductive Outcome where
  | returned (status : Int)
  | stopped (fault : Fault)
  deriving DecidableEq, Repr

/-- Append a call to the trace. -/
def Machine.log (m : Machine) (e : Event) : Machine :=
  { m with trace := m.trace ++ [e] }

/-- The call `blob_manager_->ReplaceBlob(name, blob)`. -/
def Machine.ReplaceBlob (m : Machine) (name : String) (blob : Blob) : Machine :=
  { m with manager := m.manager.ReplaceBlob name blob }

/-- The statement `this->m_trt_bindings[index] = base`. The array has `m_trt_bindings.length`
entries; a store at an index outside `[0, length)` does not land in the array, and the run goes
on. -/
def Machine.storeBinding (m : Machine) (index : Int) (base : Nat) : Machine :=
  { m with
    net := { m.net with
      m_trt_bindings :=
        if 0 ≤ index then m.net.m_trt_bindings.set index.toNat (some base)
        else m.net.m_trt_bindings }
    trace := m.trace ++ [Event.storeBinding index base] }

/-- The statement `layers_.push_back(cur_layer)`. -/
def Machine.pushLayer (m : Machine) (cur_layer : LayerBuilder) : Machine :=
  { m with net := { m.net with layers_ := m.net.layers_ ++ [cur_layer] } }

/-- The assignment to `device_`. -/
def Machine.setDevice (m : Machine) (device : Option Nat) : Machine :=
  { m with net := { m.net with device_ := device } }

/-- The assignment `blob_manager_ = new TensorRTBlobManager(device_)`, with the manager as its
`Init` leaves it. -/
def Machine.setBlobManager (m : Machine) (blob_manager : BlobManager) : Machine :=
  { m with net := { m.net with blob_manager_ := true }, manager := blob_manager }

/-- The assignment to `m_max_batchsize`. -/
def Machine.setMaxBatchSize (m : Machine) (n : Int) : Machine :=
  { m with net := { m.net with m_max_batchsize := n } }

/-- The assignments to `m_trt_builder` and `m_trt_network`. -/
def Machine.setBuilder (m : Machine) : Machine :=
  { m with net := { m.net with m_trt_builder := true, m_trt_network := true } }

/-- The assignment to `m_trt_engine`. -/
def Machine.setEngine (m : Machine) (engine : Option Engine) : Machine :=
  { m with net := { m.net with m_trt_engine := engine } }

/-- The assignment to `m_trt_context`. -/
def Machine.setContext (m : Machine) (context : ExecutionContext) : Machine :=
  { m with net := { m.net with m_trt_context := some context } }

/-- The assignment `this->m_trt_bindings = new void*[bind_num]`. -/
def Machine.newBindings (m : Machine) (bind_num : Nat) : Machine :=
  { m with net := { m.net with m_trt_bindings := List.replicate bind_num none } }

/-- The file `file_name` after `std::ofstream` created or truncated it and wrote `bytes`. The
stream is a POSIX stream, which stores the bytes it is given unchanged. -/
def Machine.storeFile (m : Machine) (file_name : String) (bytes : Bytes) : Machine :=
  { m with files := (file_name, bytes) :: m.files }

/-! ## The functions of the file -/

/-- `TensorRTNetwork::GetCacheFileName` (lines 254-256). -/
def GetCacheFileName : String := ".cache"

/-- `TensorRTNetwork::Forward` (lines 180-191). `ret` is a `bool`: the `Status` returned by
`Synchronize` is converted to `bool` on assignment, `ret != TNN_OK` compares the converted
`bool` with the enumerator, and `return ret` builds a `Status` from the `bool`. -/
def Forward (d : StatusDecl) (env : Env) (m : Machine) : Int × Machine :=
  let ret : Bool := env.enqueue m.net.m_max_batchsize m.net.m_trt_bindings m.net.stream
  let m := m.log (Event.enqueue m.net.m_max_batchsize m.net.m_trt_bindings m.net.stream)
  if ret != true then (d.TNNERR_CUDA_TENSORRT_ERROR, m)
  else
    let ret : Bool := d.toBool env.Synchronize
    let m := m.log Event.Synchronize
    if boolToInt ret ≠ d.TNN_OK then (boolToInt ret, m)
    else (d.TNN_OK, m)

/-- `TensorRTNetwork::ForwardAsync` (lines 193-200). `Callback` is a type of a header that is
not among the sources; the function never reads `call_back`, whatever it is. -/
def ForwardAsync {Callback : Type} (d : StatusDecl) (env : Env) (_call_back : Callback)
    (m : Machine) : Int × Machine :=
  let ret : Bool := env.enqueue m.net.m_max_batchsize m.net.m_trt_bindings m.net.stream
  let m := m.log (Event.enqueue m.net.m_max_batchsize m.net.m_trt_bindings m.net.stream)
  if ret != true then (d.TNNERR_CUDA_TENSORRT_ERROR, m)
  else (d.TNN_OK, m)

/-- The body of the loop of `InitLayers` for one `layer_info`, after the builder was created
(lines 216-235): the builder with the blobs that `blob_manager_` returns for its input and
output names. -/
def makeLayer (net_resource : NetResource) (blob_manager : BlobManager)
    (layer_info : LayerInfo) : LayerBuilder :=
  { type := layer_info.type
    name := layer_info.name
    resource := net_resource.resource_map.lookup layer_info.name
    inputs := layer_info.inputs.map blob_manager.GetBlob
    outputs := layer_info.outputs.map blob_manager.GetBlob }

/-- The loop of `TensorRTNetwork::InitLayers` (lines 209-244) over the layers still to build. -/
def InitLayersLoop (d : StatusDecl) (env : Env) (net_resource : NetResource) :
    List LayerInfo → Machine → Int × Machine
  | [], m => (d.TNN_OK, m)
  | layer_info :: rest, m =>
    if env.CreateTensorRTBaseLayerBuilder layer_info.type = false then
      (d.TNNERR_PARAM_ERR, m.log (Event.CreateLayerBuilder layer_info.type))
    else
      let cur_layer := makeLayer net_resource m.manager layer_info
      let ret := env.layerInit cur_layer
      if ret ≠ d.TNN_OK then
        (ret, (m.log (Event.CreateLayerBuilder layer_info.type)).log (Event.layerInit cur_layer))
      else
        InitLayersLoop d env net_resource rest
          (((m.log (Event.CreateLayerBuilder layer_info.type)).log
            (Event.layerInit cur_layer)).pushLayer cur_layer)

/-- `TensorRTNetwork::InitLayers` (lines 206-245). -/
def InitLayers (d : StatusDecl) (env : Env) (net_structure : NetStructure)
    (net_resource : NetResource) (m : Machine) : Int × Machine :=
  InitLayersLoop d env net_resource net_structure.layers m

/-- `TensorRTNetwork::CreateExecuteContext` (lines 248-252), on the engine `m_trt_engine`
points to. -/
def CreateExecuteContext (m : Machine) (engine : Engine) : Machine :=
  let device_memory := m.manager.GetContextMemory
  ((m.log Event.createExecutionContext).log (Event.setDeviceMemory device_memory)).setContext
    { engine := engine, deviceMemory := device_memory }

/-- The loop of lines 78-82, started with `m_max_batchsize` at `acc`; `none` when a blob has no
`dims[0]`. -/
def maxBatchLoop : List Blob → Int → Option Int
  | [], acc => some acc
  | blob :: rest, acc =>
    match blob.GetBlobDesc.dims with
    | [] => none
    | d0 :: _ => maxBatchLoop rest (if d0 > acc then d0 else acc)

/-- The loop over `inputs` of the fresh build (lines 101-113); a fault when a blob has no
`dims[3]`. -/
def addInputs (env : Env) : List Blob → Machine → Option Fault × Machine
  | [], m => (none, m)
  | input :: rest, m =>
    match input.GetBlobDesc.dims with
    | _ :: c :: h :: w :: _ =>
      let in_tensor := env.addInput input.GetBlobDesc.name
      let foreign_blob := Blob.foreign input (some in_tensor)
      addInputs env rest
        ((m.log (Event.addInput input.GetBlobDesc.name c h w)).ReplaceBlob
          input.GetBlobDesc.name foreign_blob)
    | _ => (some Fault.vectorIndex, m)

/-- The loop over the outputs of one layer (lines 118-126), from `out_id` on; a fault when an
output of the layer is a null pointer. -/
def wrapOutputs (env : Env) (cur_trt_layer : ILayer) :
    List (Option Blob) → Nat → Machine → Option Fault × Machine
  | [], _, m => (none, m)
  | none :: _, _, m => (some Fault.nullPointer, m)
  | some output :: rest, out_id, m =>
    let out_tensor := env.getOutput cur_trt_layer out_id
    let foreign_blob := Blob.foreign output (some out_tensor)
    wrapOutputs env cur_trt_layer rest (out_id + 1)
      (m.ReplaceBlob output.GetBlobDesc.name foreign_blob)

/-- The loop over `layers_` of the fresh build (lines 115-127), from `layer_id` on. -/
def addLayers (env : Env) : List LayerBuilder → Nat → Machine → Option Fault × Machine
  | [], _, m => (none, m)
  | cur_layer :: rest, layer_id, m =>
    let cur_trt_layer := env.AddToNetwork layer_id cur_layer
    match wrapOutputs env cur_trt_layer cur_layer.outputs 0
        (m.log (Event.AddToNetwork layer_id)) with
    | (none, m) => addLayers env rest (layer_id + 1) m
    | (some fault, m) => (some fault, m)

/-- The loop over `outputs` of the fresh build (lines 129-133). `output` is a value of the map
filled on line 89; the `dynamic_cast` to `ForeignBlob*` is null for a blob that is not a
ForeignBlob, and `GetTensor` needs the tensor the ForeignBlob holds. -/
def markOutputs : List Blob → Machine → Option Fault × Machine
  | [], m => (none, m)
  | Blob.foreign _ (some tensor) :: rest, m => markOutputs rest (m.log (Event.markOutput tensor))
  | _ :: _, m => (some Fault.nullPointer, m)

/-- Lines 135-146 of the fresh build: the engine is built, its context created, and its
serialized form written to the cache file. -/
def compileEngine (env : Env) (cache_file_name : String) (m : Machine) :
    Option Fault × Machine :=
  let m := ((m.log (Event.setMaxBatchSize m.net.m_max_batchsize)).log
    Event.buildCudaEngine).setEngine env.buildCudaEngine
  match env.buildCudaEngine with
  | none => (some Fault.nullPointer, m)
  | some engine =>
    let model_stream := engine.serialized
    (none, ((CreateExecuteContext m engine).log
      (Event.writeFile cache_file_name model_stream)).storeFile cache_file_name model_stream)

/-- The branch `false == file_lock->Ready()` (lines 98-146). -/
def buildEngine (env : Env) (inputs outputs : List Blob) (cache_file_name : String)
    (m : Machine) : Option Fault × Machine :=
  match addInputs env inputs
      (((m.log Event.createInferBuilder).log Event.createNetwork).setBuilder) with
  | (some fault, m) => (some fault, m)
  | (none, m) =>
    match addLayers env m.net.layers_ 0 m with
    | (some fault, m) => (some fault, m)
    | (none, m) =>
      match markOutputs outputs m with
      | (some fault, m) => (some fault, m)
      | (none, m) => compileEngine env cache_file_name m

/-- The branch in which `file_lock->Ready()` holds (lines 148-160). For a file that cannot be
opened `tellg()` is `-1` and `new char[size]` throws. -/
def loadEngine (env : Env) (cache_file_name : String) (m : Machine) :
    Option Fault × Machine :=
  match m.files.lookup cache_file_name with
  | none => (some Fault.badAlloc, m)
  | some content =>
    let size := content.length
    let model_stream := content.take size
    let m := (m.log (Event.deserializeCudaEngine model_stream size true)).setEngine
      (env.deserializeCudaEngine model_stream)
    match env.deserializeCudaEngine model_stream with
    | none => (some Fault.nullPointer, m)
    | some engine => (none, CreateExecuteContext m engine)

/-- The two loops of lines 167-175, over the blobs still to bind. -/
def storeBindings (engine : Engine) : List Blob → Machine → Machine
  | [], m => m
  | blob :: rest, m =>
    storeBindings engine rest
      (m.storeBinding (engine.getBindingIndex blob.GetBlobDesc.name) blob.base)

/-- Lines 163-177 of `Init`, on the engine `m_trt_engine` points to. -/
def bindEngine (d : StatusDecl) (engine : Engine) (inputs outputs : List Blob)
    (file_name : String) (m : Machine) : Outcome × Machine :=
  (Outcome.returned d.TNN_OK,
    storeBindings engine outputs (storeBindings engine inputs
      ((m.log (Event.deleteExclFile file_name)).newBindings engine.getNbBindings)))

/-- Lines 85-177 of `Init`, with `inputs` filled and `m_max_batchsize` computed. -/
def InitCache (d : StatusDecl) (env : Env) (inputs : List Blob) (m : Machine) :
    Outcome × Machine :=
  let file_name := GetCacheFileName
  let m := m.log (Event.newExclFile file_name)
  let ret := m.manager.GetAllOutputBlobs
  if ret ≠ d.TNN_OK then (Outcome.returned ret, m)
  else
    let outputs := m.manager.output_blobs
    let cache_file_name := GetCacheFileName
    match (if env.Ready = false then buildEngine env inputs outputs cache_file_name m
           else loadEngine env cache_file_name m) with
    | (some fault, m) => (Outcome.stopped fault, m)
    | (none, m) =>
      match m.net.m_trt_engine with
      | none => (Outcome.stopped Fault.nullPointer, m)
      | some engine => bindEngine d engine inputs outputs file_name m

/-- Lines 69-177 of `Init`. When the loop of lines 78-82 stops on a blob without `dims[0]`, the
machine shows `m_max_batchsize` at the `1` of line 69. -/
def InitEngine (d : StatusDecl) (env : Env) (m : Machine) : Outcome × Machine :=
  let ret := m.manager.GetAllInputBlobs
  if ret ≠ d.TNN_OK then (Outcome.returned ret, m.setMaxBatchSize 1)
  else
    let inputs := m.manager.input_blobs
    match maxBatchLoop inputs 1 with
    | none => (Outcome.stopped Fault.vectorIndex, m.setMaxBatchSize 1)
    | some batch => InitCache d env inputs (m.setMaxBatchSize batch)

/-- Lines 36-67 of `Init`: `some status` when the function returns there, `none` when the run
goes on to line 69. `model_config` and `inputs_shape` only reach `blob_manager_->Init`, whose
outcome is read from `env`. -/
def InitSetup (d : StatusDecl) (env : Env) (net_config : NetworkConfig)
    (interpreter : Interpreter) (m : Machine) : Option Int × Machine :=
  match interpreter with
  | Interpreter.null => (some d.CHECK_PARAM_NULL, m)
  | Interpreter.other => (some d.CHECK_PARAM_NULL, m)
  | Interpreter.default none _ => (some d.TNNERR_NULL_PARAM, m)
  | Interpreter.default (some _) none => (some d.TNNERR_NULL_PARAM, m)
  | Interpreter.default (some net_structure) (some net_resource) =>
    match env.GetDevice net_config.device_type with
    | none =>
      (some d.TNNERR_DEVICE_NOT_SUPPORT,
        (m.log (Event.GetDevice net_config.device_type)).setDevice none)
    | some device =>
      let m := (((m.log (Event.GetDevice net_config.device_type)).setDevice (some device)).log
        Event.newBlobManager).setBlobManager env.blobManager
      let ret := env.blobManagerInit
      if ret ≠ d.TNN_OK then (some ret, m)
      else
        if (InitLayers d env net_structure net_resource m).1 ≠ d.TNN_OK then
          (some (InitLayers d env net_structure net_resource m).1,
            (InitLayers d env net_structure net_resource m).2)
        else
          let m := (InitLayers d env net_structure net_resource m).2.log
            Event.AllocateBlobMemory
          let ret := m.manager.AllocateBlobMemory
          if ret ≠ d.TNN_OK then (some ret, m)
          else (none, m)

/-- `TensorRTNetwork::Init` (lines 36-178). -/
def Init (d : StatusDecl) (env : Env) (net_config : NetworkConfig)
    (interpreter : Interpreter) (m : Machine) : Outcome × Machine :=
  match InitSetup d env net_config interpreter m with
  | (some status, m) => (Outcome.returned status, m)
  | (none, m) => InitEngine d env m

/-- `Init` reaches the test of `file_lock->Ready()` on line 97: lines 36-67 do not return, both
enumerations of blobs succeed and every input blob has a `dims[0]`. -/
def ReachesCacheDecision (d : StatusDecl) (env : Env) (net_config : NetworkConfig)
    (interpreter : Interpreter) (m : Machine) : Prop :=
  (InitSetup d env net_config interpreter m).1 = none ∧
  env.blobManager.GetAllInputBlobs = d.TNN_OK ∧
  maxBatchLoop env.blobManager.input_blobs 1 ≠ none ∧
  env.blobManager.GetAllOutputBlobs = d.TNN_OK

/-- The batch sizes the code can choose from: `1` and the `dims[0]` of the blobs. -/
def batchCandidates (blobs : List Blob) : Set Int :=
  insert 1 {n | ∃ blob ∈ blobs, blob.GetBlobDesc.dims.head? = some n}

/-- The machine `m2` keeps `m_max_batchsize` of `m`, its trace keeps the calls of the trace of
`m`, and every call in its trace is in the trace of `m` or satisfies `P`. -/
def Ext (P : Event → Prop) (m m2 : Machine) : Prop :=
  m2.net.m_max_batchsize = m.net.m_max_batchsize ∧ (∀ e ∈ m.trace, e ∈ m2.trace) ∧
  ∀ e ∈ m2.trace, e ∈ m.trace ∨ P e

/-- The calls lines 36-67 of `Init` can make. -/
def setupCall : Event → Prop
  | Event.GetDevice _ => True
  | Event.newBlobManager => True
  | Event.CreateLayerBuilder _ => True
  | Event.layerInit _ => True
  | Event.AllocateBlobMemory => True
  | _ => False

/-- The calls lines 85-177 of `Init` can make when the engine is loaded from the cache, `file`
being the content of the cache file: `deserializeCudaEngine` is given that content, its length
and the plugin factory. -/
def loadPathCall (file : Option Bytes) : Event → Prop
  | Event.newExclFile _ => True
  | Event.deserializeCudaEngine model_stream size pluginFactory =>
    file = some model_stream ∧ size = model_stream.length ∧ pluginFactory = true
  | Event.createExecutionContext => True
  | Event.setDeviceMemory _ => True
  | Event.deleteExclFile _ => True
  | Event.storeBinding _ _ => True
  | _ => False

/-- The calls lines 85-177 of `Init` can make when the engine is built, `batch` being
`m_max_batchsize`. -/
def buildPathCall (batch : Int) : Event → Prop
  | Event.newExclFile _ => True
  | Event.createInferBuilder => True
  | Event.createNetwork => True
  | Event.addInput _ _ _ _ => True
  | Event.AddToNetwork _ => True
  | Event.markOutput _ => True
  | Event.setMaxBatchSize n => n = batch
  | Event.buildCudaEngine => True
  | Event.createExecutionContext => True
  | Event.setDeviceMemory _ => True
  | Event.writeFile _ _ => True
  | Event.deleteExclFile _ => True
  | Event.storeBinding _ _ => True
  | _ => False

/-- A call that is not a `setMaxBatchSize` with a value other than `batch`. -/
def batchCall (batch : Int) (e : Event) : Prop :=
  ∀ n, e = Event.setMaxBatchSize n → n = batch

/-- A call that belongs to the fresh build only: creating the builder, `AddToNetwork`, or
writing a file. -/
def freshBuildCall : Event → Prop
  | Event.createInferBuilder => True
  | Event.AddToNetwork _ => True
  | Event.writeFile _ _ => True
  | _ => False

/-! ## Concrete networks -/

/-- Declarations used to evaluate the model: `TNN_OK` is `0`, a `Status` converts to `true`
exactly when its code is `TNN_OK`, `CHECK_PARAM_NULL` returns `TNNERR_PARAM_ERR`, and the error
enumerators have pairwise different codes above `1`. -/
def tnnDecl : StatusDecl :=
  { TNN_OK := 0, TNNERR_PARAM_ERR := 0x1000, TNNERR_NULL_PARAM := 0x1004,
    TNNERR_DEVICE_NOT_SUPPORT := 0x1008, TNNERR_CUDA_TENSORRT_ERROR := 0x1010,
    CHECK_PARAM_NULL := 0x1000, toBool := fun code => code == 0 }

/-- An error code of the device runtime, as `Synchronize` returns when the stream fails. -/
def syncError : Int := 0x1011

/-- Input blob `x` of shape `[1, 3, 224, 224]`. -/
def blobX : Blob := Blob.plain { name := "x", dims := [1, 3, 224, 224] } 100

/-- Output blob `y` of shape `[1, 3, 224, 224]`. -/
def blobY : Blob := Blob.plain { name := "y", dims := [1, 3, 224, 224] } 200

/-- The graph `x → ReLU → y`. -/
def reluGraph : NetStructure :=
  { layers := [{ type := 1, name := "relu", inputs := ["x"], outputs := ["y"] }] }

/-- The blob manager of the graph `x → ReLU → y`. -/
def reluManager : BlobManager :=
  { blobs := [("x", blobX), ("y", blobY)], input_blobs := [blobX], output_blobs := [blobY],
    AllocateBlobMemory := 0, GetAllInputBlobs := 0, GetAllOutputBlobs := 0,
    GetContextMemory := 7 }

/-- An engine with the bindings `x` and `y`. -/
def reluEngine : Engine := { bindingNames := ["x", "y"], serialized := [1, 2, 3] }

/-- Collaborators that succeed everywhere, for the graph `x → ReLU → y`, with no cache yet. -/
def reluEnv : Env :=
  { GetDevice := fun _ => some 0, blobManagerInit := 0, blobManager := reluManager,
    CreateTensorRTBaseLayerBuilder := fun _ => true, layerInit := fun _ => 0,
    Ready := false, addInput := fun _ => 10, AddToNetwork := fun layer_id _ => 20 + layer_id,
    getOutput := fun layer out_id => 100 * layer + out_id,
    buildCudaEngine := some reluEngine, deserializeCudaEngine := fun _ => some reluEngine,
    enqueue := fun _ _ _ => true, Synchronize := 0 }

/-- The interpreter holding the graph `x → ReLU → y` and an empty resource map. -/
def reluInterpreter : Interpreter :=
  Interpreter.default (some reluGraph) (some { resource_map := [] })

/-- A blob manager that knows no blob. -/
def emptyManager : BlobManager :=
  { blobs := [], input_blobs := [], output_blobs := [], AllocateBlobMemory := 0,
    GetAllInputBlobs := 0, GetAllOutputBlobs := 0, GetContextMemory := 0 }

/-- A network object as its constructor leaves it, on an empty disk. -/
def freshMachine : Machine :=
  { net := { device_ := none, blob_manager_ := false, layers_ := [], m_max_batchsize := 0,
             m_trt_builder := false, m_trt_network := false, m_trt_engine := none,
             m_trt_context := none, m_trt_bindings := [], stream := 0 },
    manager := emptyManager, files := [], trace := [] }

/-- The device type handed to `Init` in the concrete runs. -/
def cudaConfig : NetworkConfig := { device_type := 0 }

/-- The collaborators of `reluEnv` once a cache exists: `Ready()` holds. -/
def cachedEnv : Env := { reluEnv with Ready := true }

/-- A fresh network object next to a cache file `.cache`. -/
def cachedMachine : Machine := { freshMachine with files := [(".cache", [1, 2, 3])] }

/-- The network of `x → ReLU → y` after an `Init` that loaded its engine from the cache. -/
def readyMachine : Machine := (Init tnnDecl cachedEnv cudaConfig reluInterpreter cachedMachine).2

/-- The collaborators of `cachedEnv` with a device stream whose synchronization fails. -/
def syncFailEnv : Env := { cachedEnv with Synchronize := syncError }

/-- The engine of another model, with the bindings `data` and `prob`. -/
def otherEngine : Engine := { bindingNames := ["data", "prob"], serialized := [9, 9] }

/-- The collaborators of `cachedEnv` when the file `.cache` holds the engine of another model. -/
def otherCacheEnv : Env := { cachedEnv with deserializeCudaEngine := fun _ => some otherEngine }

/-- A fresh network object next to a `.cache` written for another model. -/
def otherCacheMachine : Machine := { freshMachine with files := [(".cache", [9, 9])] }

/-- The collaborators of `reluEnv` with a blob manager whose `GetAllOutputBlobs` fails. -/
def noOutputsEnv : Env :=
  { reluEnv with blobManager := { reluManager with GetAllOutputBlobs := 0x1000 } }

/-- A graph whose layer lists the output name `missing`, which `reluManager` does not know. -/
def danglingGraph : NetStructure :=
  { layers := [{ type := 1, name := "relu", inputs := ["x"], outputs := ["missing"] }] }

/-- The builder `InitLayers` makes for the layer of `danglingGraph`: its output is null. -/
def danglingLayer : LayerBuilder :=
  { type := 1, name := "relu", resource := none, inputs := [some blobX], outputs := [none] }

/-- The interpreter holding `danglingGraph` and an empty resource map. -/
def danglingInterpreter : Interpreter :=
  Interpreter.default (some danglingGraph) (some { resource_map := [] })

/-- The collaborators of `reluEnv` when no builder exists for any layer type. -/
def noBuilderEnv : Env := { reluEnv with CreateTensorRTBaseLayerBuilder := fun _ => false }

/-- The graph `x → ReLU → x`, whose layer writes its result under the name of its input. -/
def inplaceGraph : NetStructure :=
  { layers := [{ type := 1, name := "relu", inputs := ["x"], outputs := ["x"] }] }

/-- The collaborators of `reluEnv` with a blob manager whose output map already holds a
ForeignBlob for `y`, carrying the tensor `55`. -/
def staleOutputEnv : Env :=
  { reluEnv with blobManager :=
      { reluManager with output_blobs := [Blob.foreign blobY (some 55)] } }

/-- The network object of `freshMachine` once its blob manager is `reluManager`. -/
def managedMachine : Machine := { freshMachine with manager := reluManager }

/-- Whether a call is a `markOutput`. -/
def Event.isMarkOutput : Event → Bool
  | Event.markOutput _ => true
  | _ => false

/-- A blob manager with the input blobs `x`, of batch `4`, and `mask`, of batch `-2`. -/
def batchManager : BlobManager :=
  { reluManager with
    blobs := [("x", Blob.plain { name := "x", dims := [4, 3, 8, 8] } 100),
              ("mask", Blob.plain { name := "mask", dims := [-2, 1, 8, 8] } 300),
              ("y", blobY)]
    input_blobs := [Blob.plain { name := "mask", dims := [-2, 1, 8, 8] } 300,
                    Blob.plain { name := "x", dims := [4, 3, 8, 8] } 100] }

/-- The collaborators of `cachedEnv` with the blob manager `batchManager` and a cached engine
that has the bindings `mask`, `x` and `y`. -/
def batchEnv : Env :=
  { cachedEnv with
    blobManager := batchManager
    deserializeCudaEngine := fun _ =>
      some { bindingNames := ["mask", "x", "y"], serialized := [1, 2, 3] } }

/-! ## Theorems -/

/-! ## Forward and ForwardAsync -/

theorem log_trace (m : Machine) (e : Event) : (m.log e).trace = m.trace ++ [e] := rfl

theorem log_net (m : Machine) (e : Event) : (m.log e).net = m.net := rfl

theorem log_files (m : Machine) (e : Event) : (m.log e).files = m.files := rfl

theorem log_manager (m : Machine) (e : Event) : (m.log e).manager = m.manager := rfl

/-- C7: `ForwardAsync` makes exactly one call, the enqueue with `m_max_batchsize`, the binding
table and the device stream; `Forward` makes the same call first and only then, when the enqueue
succeeded, synchronizes; `ForwardAsync` never synchronizes, leaves the network object, the blob
manager and the files as they were, and returns `TNN_OK` when the enqueue succeeded and
`TNNERR_CUDA_TENSORRT_ERROR` when it failed, for a callback of any type and value. -/
theorem ForwardAsync_enqueues_like_Forward {Callback : Type} (d : StatusDecl) (env : Env)
    (call_back : Callback) (m : Machine) :
    (ForwardAsync d env call_back m).2.trace =
        m.trace ++ [Event.enqueue m.net.m_max_batchsize m.net.m_trt_bindings m.net.stream] ∧
    (Forward d env m).2.trace = (ForwardAsync d env call_back m).2.trace ++
        (if env.enqueue m.net.m_max_batchsize m.net.m_trt_bindings m.net.stream = true
         then [Event.Synchronize] else []) ∧
    (ForwardAsync d env call_back m).2.net = m.net ∧
    (ForwardAsync d env call_back m).2.manager = m.manager ∧
    (ForwardAsync d env call_back m).2.files = m.files ∧
    (ForwardAsync d env call_back m).1 =
        (if env.enqueue m.net.m_max_batchsize m.net.m_trt_bindings m.net.stream = true
         then d.TNN_OK else d.TNNERR_CUDA_TENSORRT_ERROR) := by
  unfold ForwardAsync Forward
  cases h : env.enqueue m.net.m_max_batchsize m.net.m_trt_bindings m.net.stream
  · simp [log_trace, log_net, log_files, log_manager]
  · by_cases hs : boolToInt (d.toBool env.Synchronize) = d.TNN_OK <;>
      simp [hs, log_trace, log_net, log_files, log_manager]

/-- C3, evaluated where the device stream fails after a successful enqueue. Whatever conversion
of a `Status` to `bool` the header declares, the status `Forward` returns is not the error
`syncError` that `Synchronize` returned. With the conversion of `tnnDecl`, which is `true`
exactly for `TNN_OK`, `Forward` returns `TNN_OK` for that error, and returns the status of code
`1` when `Synchronize` returns `TNN_OK`. -/
theorem Forward_loses_synchronize_status :
    syncFailEnv.enqueue readyMachine.net.m_max_batchsize readyMachine.net.m_trt_bindings
        readyMachine.net.stream = true ∧
    syncFailEnv.Synchronize = syncError ∧
    (Forward tnnDecl syncFailEnv readyMachine).1 = tnnDecl.TNN_OK ∧
    (∀ conv : Int → Bool,
        (Forward { tnnDecl with toBool := conv } syncFailEnv readyMachine).1 ≠ syncError) ∧
    cachedEnv.Synchronize = tnnDecl.TNN_OK ∧
    (Forward tnnDecl cachedEnv readyMachine).1 = 1 := by
  refine ⟨rfl, rfl, by decide, ?_, rfl, by decide⟩
  intro conv
  have hs : syncFailEnv.Synchronize = 4113 := rfl
  unfold Forward
  cases h : conv 4113 <;>
    simp [h, hs, boolToInt, syncFailEnv, cachedEnv, reluEnv, tnnDecl, syncError]

/-! ## The first test of Init -/

/-- C6, as stated, fails for an interpreter that is not a default model interpreter when
`CHECK_PARAM_NULL` returns `TNNERR_PARAM_ERR`: `Init` returns that status, not
`TNNERR_NULL_PARAM`. -/
theorem Init_other_interpreter_not_null_param :
    (Init tnnDecl reluEnv cudaConfig Interpreter.other freshMachine).1 =
        Outcome.returned tnnDecl.TNNERR_PARAM_ERR ∧
    (Init tnnDecl reluEnv cudaConfig Interpreter.other freshMachine).1 ≠
        Outcome.returned tnnDecl.TNNERR_NULL_PARAM := by
  decide

/-- C6, amended: called with a default model interpreter whose parsed graph or resource map is
absent, `Init` returns `TNNERR_NULL_PARAM`; called with a null interpreter or one that is not a
default model interpreter, it returns the status of `CHECK_PARAM_NULL`. In each case it returns
before any other step: the machine is the one it was called on, so no call was made (no device
resolved, no blob manager created, no layer built, no `ExclFile` constructed) and no field
changed. -/
theorem Init_rejects_interpreter_first (d : StatusDecl) (env : Env)
    (net_config : NetworkConfig) (m : Machine) (net_structure : Option NetStructure)
    (net_resource : Option NetResource) (h : net_structure = none ∨ net_resource = none) :
    Init d env net_config (Interpreter.default net_structure net_resource) m =
        (Outcome.returned d.TNNERR_NULL_PARAM, m) ∧
    Init d env net_config Interpreter.other m = (Outcome.returned d.CHECK_PARAM_NULL, m) ∧
    Init d env net_config Interpreter.null m = (Outcome.returned d.CHECK_PARAM_NULL, m) := by
  refine ⟨?_, rfl, rfl⟩
  rcases h with h | h
  · subst h; rfl
  · subst h; cases net_structure <;> rfl

/-- C6 at an interpreter that holds a graph and no resource map. -/
theorem Init_rejects_interpreter_first_witness :
    Init tnnDecl reluEnv cudaConfig (Interpreter.default (some reluGraph) none) freshMachine =
        (Outcome.returned tnnDecl.TNNERR_NULL_PARAM, freshMachine) ∧
    Init tnnDecl reluEnv cudaConfig Interpreter.other freshMachine =
        (Outcome.returned tnnDecl.CHECK_PARAM_NULL, freshMachine) ∧
    Init tnnDecl reluEnv cudaConfig Interpreter.null freshMachine =
        (Outcome.returned tnnDecl.CHECK_PARAM_NULL, freshMachine) :=
  Init_rejects_interpreter_first tnnDecl reluEnv cudaConfig freshMachine (some reluGraph) none
    (Or.inr rfl)

/-! ## How the steps extend the trace -/

theorem Ext.refl (P : Event → Prop) (m : Machine) : Ext P m m :=
  ⟨rfl, fun _ h => h, fun _ h => Or.inl h⟩

theorem Ext.trans {P : Event → Prop} {m m2 m3 : Machine} (h : Ext P m m2) (h2 : Ext P m2 m3) :
    Ext P m m3 := by
  refine ⟨h2.1.trans h.1, fun e he => h2.2.1 e (h.2.1 e he), fun e he => ?_⟩
  rcases h2.2.2 e he with h3 | h3
  · exact h.2.2 e h3
  · exact Or.inr h3

theorem Ext.log {P : Event → Prop} (m : Machine) {e : Event} (h : P e) : Ext P m (m.log e) := by
  refine ⟨rfl, fun x hx => ?_, fun x hx => ?_⟩
  · simp [Machine.log, hx]
  · simp only [Machine.log, List.mem_append, List.mem_singleton] at hx
    rcases hx with hx | hx
    · exact Or.inl hx
    · exact Or.inr (hx ▸ h)

theorem Ext.storeBinding {P : Event → Prop} (m : Machine) (index : Int) (base : Nat)
    (h : P (Event.storeBinding index base)) : Ext P m (m.storeBinding index base) := by
  refine ⟨rfl, fun x hx => ?_, fun x hx => ?_⟩
  · simp [Machine.storeBinding, hx]
  · simp only [Machine.storeBinding, List.mem_append, List.mem_singleton] at hx
    rcases hx with hx | hx
    · exact Or.inl hx
    · exact Or.inr (hx ▸ h)

theorem Ext.ReplaceBlob (P : Event → Prop) (m : Machine) (name : String) (blob : Blob) :
    Ext P m (m.ReplaceBlob name blob) := Ext.refl P m

theorem Ext.pushLayer (P : Event → Prop) (m : Machine) (cur_layer : LayerBuilder) :
    Ext P m (m.pushLayer cur_layer) := Ext.refl P m

theorem Ext.setDevice (P : Event → Prop) (m : Machine) (device : Option Nat) :
    Ext P m (m.setDevice device) := Ext.refl P m

theorem Ext.setBlobManager (P : Event → Prop) (m : Machine) (blob_manager : BlobManager) :
    Ext P m (m.setBlobManager blob_manager) := Ext.refl P m

theorem Ext.setBuilder (P : Event → Prop) (m : Machine) : Ext P m m.setBuilder := Ext.refl P m

theorem Ext.setEngine (P : Event → Prop) (m : Machine) (engine : Option Engine) :
    Ext P m (m.setEngine engine) := Ext.refl P m

theorem Ext.setContext (P : Event → Prop) (m : Machine) (context : ExecutionContext) :
    Ext P m (m.setContext context) := Ext.refl P m

theorem Ext.newBindings (P : Event → Prop) (m : Machine) (bind_num : Nat) :
    Ext P m (m.newBindings bind_num) := Ext.refl P m

theorem Ext.storeFile (P : Event → Prop) (m : Machine) (file_name : String) (bytes : Bytes) :
    Ext P m (m.storeFile file_name bytes) := Ext.refl P m

theorem InitLayersLoop_ext {P : Event → Prop} (d : StatusDecl) (env : Env)
    (net_resource : NetResource) (hc : ∀ type, P (Event.CreateLayerBuilder type))
    (hi : ∀ cur_layer, P (Event.layerInit cur_layer)) :
    ∀ (layers : List LayerInfo) (m : Machine),
      Ext P m (InitLayersLoop d env net_resource layers m).2 := by
  intro layers
  induction layers with
  | nil => intro m; exact Ext.refl P m
  | cons layer_info rest ih =>
    intro m
    unfold InitLayersLoop
    dsimp only
    split
    · exact Ext.log m (hc _)
    · split
      · exact (Ext.log m (hc _)).trans (Ext.log _ (hi _))
      · exact ((Ext.log m (hc _)).trans (Ext.log _ (hi _))).trans
          ((Ext.pushLayer P _ _).trans (ih _))

theorem InitLayersLoop_keeps (d : StatusDecl) (env : Env) (net_resource : NetResource) :
    ∀ (layers : List LayerInfo) (m : Machine),
      (InitLayersLoop d env net_resource layers m).2.files = m.files ∧
      (InitLayersLoop d env net_resource layers m).2.manager = m.manager := by
  intro layers
  induction layers with
  | nil => intro m; exact ⟨rfl, rfl⟩
  | cons layer_info rest ih =>
    intro m
    unfold InitLayersLoop
    dsimp only
    split
    · exact ⟨rfl, rfl⟩
    · split
      · exact ⟨rfl, rfl⟩
      · exact ih _

theorem CreateExecuteContext_ext {P : Event → Prop} (m : Machine) (engine : Engine)
    (hc : P Event.createExecutionContext) (hs : ∀ mem, P (Event.setDeviceMemory mem)) :
    Ext P m (CreateExecuteContext m engine) :=
  ((Ext.log m hc).trans (Ext.log _ (hs _))).trans (Ext.setContext P _ _)

theorem addInputs_ext {P : Event → Prop} (env : Env)
    (ha : ∀ name c h w, P (Event.addInput name c h w)) :
    ∀ (inputs : List Blob) (m : Machine), Ext P m (addInputs env inputs m).2 := by
  intro inputs
  induction inputs with
  | nil => intro m; exact Ext.refl P m
  | cons input rest ih =>
    intro m
    unfold addInputs
    split
    · exact ((Ext.log m (ha _ _ _ _)).trans (Ext.ReplaceBlob P _ _ _)).trans (ih _)
    · exact Ext.refl P m

theorem addInputs_keeps (env : Env) :
    ∀ (inputs : List Blob) (m : Machine),
      (addInputs env inputs m).2.files = m.files ∧ (addInputs env inputs m).2.net = m.net := by
  intro inputs
  induction inputs with
  | nil => intro m; exact ⟨rfl, rfl⟩
  | cons input rest ih =>
    intro m
    unfold addInputs
    split
    · exact ih _
    · exact ⟨rfl, rfl⟩

theorem wrapOutputs_keeps (env : Env) (cur_trt_layer : ILayer) :
    ∀ (outputs : List (Option Blob)) (out_id : Nat) (m : Machine),
      (wrapOutputs env cur_trt_layer outputs out_id m).2.files = m.files ∧
      (wrapOutputs env cur_trt_layer outputs out_id m).2.net = m.net ∧
      (wrapOutputs env cur_trt_layer outputs out_id m).2.trace = m.trace := by
  intro outputs
  induction outputs with
  | nil => intro out_id m; exact ⟨rfl, rfl, rfl⟩
  | cons output rest ih =>
    intro out_id m
    cases output with
    | none => exact ⟨rfl, rfl, rfl⟩
    | some output => unfold wrapOutputs; exact ih _ _

theorem wrapOutputs_ext (P : Event → Prop) (env : Env) (cur_trt_layer : ILayer)
    (outputs : List (Option Blob)) (out_id : Nat) (m : Machine) :
    Ext P m (wrapOutputs env cur_trt_layer outputs out_id m).2 := by
  obtain ⟨_, hn, ht⟩ := wrapOutputs_keeps env cur_trt_layer outputs out_id m
  refine ⟨by rw [hn], fun e he => by rw [ht]; exact he, fun e he => Or.inl (by rwa [ht] at he)⟩

theorem addLayers_ext {P : Event → Prop} (env : Env) (ha : ∀ layer_id, P (Event.AddToNetwork layer_id)) :
    ∀ (layers : List LayerBuilder) (layer_id : Nat) (m : Machine),
      Ext P m (addLayers env layers layer_id m).2 := by
  intro layers
  induction layers with
  | nil => intro layer_id m; exact Ext.refl P m
  | cons cur_layer rest ih =>
    intro layer_id m
    have hw := wrapOutputs_ext P env (env.AddToNetwork layer_id cur_layer) cur_layer.outputs 0
      (m.log (Event.AddToNetwork layer_id))
    unfold addLayers
    dsimp only
    split
    · next m2 heq =>
      rw [heq] at hw
      exact ((Ext.log m (ha _)).trans hw).trans (ih _ _)
    · next fault m2 heq =>
      rw [heq] at hw
      exact (Ext.log m (ha _)).trans hw

theorem addLayers_keeps (env : Env) :
    ∀ (layers : List LayerBuilder) (layer_id : Nat) (m : Machine),
      (addLayers env layers layer_id m).2.files = m.files ∧
      (addLayers env layers layer_id m).2.net = m.net := by
  intro layers
  induction layers with
  | nil => intro layer_id m; exact ⟨rfl, rfl⟩
  | cons cur_layer rest ih =>
    intro layer_id m
    obtain ⟨hf, hn, _⟩ := wrapOutputs_keeps env (env.AddToNetwork layer_id cur_layer)
      cur_layer.outputs 0 (m.log (Event.AddToNetwork layer_id))
    unfold addLayers
    dsimp only
    split
    · next m2 heq =>
      rw [heq] at hf hn
      obtain ⟨hf2, hn2⟩ := ih (layer_id + 1) m2
      exact ⟨hf2.trans hf, hn2.trans hn⟩
    · next fault m2 heq =>
      rw [heq] at hf hn
      exact ⟨hf, hn⟩

theorem markOutputs_ext {P : Event → Prop} (hm : ∀ tensor, P (Event.markOutput tensor)) :
    ∀ (outputs : List Blob) (m : Machine), Ext P m (markOutputs outputs m).2 := by
  intro outputs
  induction outputs with
  | nil => intro m; exact Ext.refl P m
  | cons output rest ih =>
    intro m
    cases output with
    | plain desc base => exact Ext.refl P m
    | foreign blob tensor =>
      cases tensor with
      | none => exact Ext.refl P m
      | some tensor => simp only [markOutputs]; exact (Ext.log m (hm _)).trans (ih _)

theorem markOutputs_keeps :
    ∀ (outputs : List Blob) (m : Machine),
      (markOutputs outputs m).2.files = m.files ∧ (markOutputs outputs m).2.net = m.net := by
  intro outputs
  induction outputs with
  | nil => intro m; exact ⟨rfl, rfl⟩
  | cons output rest ih =>
    intro m
    cases output with
    | plain desc base => exact ⟨rfl, rfl⟩
    | foreign blob tensor =>
      cases tensor with
      | none => exact ⟨rfl, rfl⟩
      | some tensor => simp only [markOutputs]; exact ih _

theorem storeBindings_ext {P : Event → Prop} (engine : Engine)
    (hs : ∀ index base, P (Event.storeBinding index base)) :
    ∀ (blobs : List Blob) (m : Machine), Ext P m (storeBindings engine blobs m) := by
  intro blobs
  induction blobs with
  | nil => intro m; exact Ext.refl P m
  | cons blob rest ih =>
    intro m
    unfold storeBindings
    exact (Ext.storeBinding m _ _ (hs _ _)).trans (ih _)

theorem storeBindings_files (engine : Engine) :
    ∀ (blobs : List Blob) (m : Machine), (storeBindings engine blobs m).files = m.files := by
  intro blobs
  induction blobs with
  | nil => intro m; rfl
  | cons blob rest ih =>
    intro m
    unfold storeBindings
    exact ih _

theorem Ext.mono {P Q : Event → Prop} {m m2 : Machine} (h : Ext P m m2)
    (hPQ : ∀ e, P e → Q e) : Ext Q m m2 :=
  ⟨h.1, h.2.1, fun e he => (h.2.2 e he).imp id (hPQ e)⟩

theorem InitSetup_ext (d : StatusDecl) (env : Env) (net_config : NetworkConfig)
    (interpreter : Interpreter) (m : Machine) :
    Ext setupCall m (InitSetup d env net_config interpreter m).2 := by
  unfold InitSetup
  split
  · exact Ext.refl _ m
  · exact Ext.refl _ m
  · exact Ext.refl _ m
  · exact Ext.refl _ m
  · next net_structure net_resource =>
    split
    · exact (Ext.log m trivial).trans (Ext.setDevice _ _ _)
    · next device hdev =>
      have h1 : Ext setupCall m
          ((((m.log (Event.GetDevice net_config.device_type)).setDevice (some device)).log
            Event.newBlobManager).setBlobManager env.blobManager) :=
        (((Ext.log m trivial).trans (Ext.setDevice _ _ _)).trans (Ext.log _ trivial)).trans
          (Ext.setBlobManager _ _ _)
      have h2 := h1.trans (InitLayersLoop_ext d env net_resource
        (fun _ => trivial) (fun _ => trivial) net_structure.layers _)
      dsimp only
      split
      · exact h1
      · split
        · exact h2
        · split
          · exact h2.trans (Ext.log _ trivial)
          · exact h2.trans (Ext.log _ trivial)

theorem InitSetup_keeps (d : StatusDecl) (env : Env) (net_config : NetworkConfig)
    (interpreter : Interpreter) (m : Machine)
    (h : (InitSetup d env net_config interpreter m).1 = none) :
    (InitSetup d env net_config interpreter m).2.files = m.files ∧
    (InitSetup d env net_config interpreter m).2.manager = env.blobManager := by
  rcases interpreter with _ | _ | ⟨_ | net_structure, net_resource⟩
  · cases h
  · cases h
  · cases h
  · rcases net_resource with _ | net_resource
    · cases h
    · simp only [InitSetup] at h ⊢
      cases hdev : env.GetDevice net_config.device_type with
      | none => simp [hdev] at h
      | some device =>
        obtain ⟨hf, hm⟩ := InitLayersLoop_keeps d env net_resource net_structure.layers
          ((((m.log (Event.GetDevice net_config.device_type)).setDevice (some device)).log
              Event.newBlobManager).setBlobManager env.blobManager)
        simp only [hdev] at h ⊢
        split at h
        · cases h
        · split at h
          · cases h
          · split at h
            · cases h
            · next h1 h2 h3 =>
              rw [if_neg h1, if_neg h2, if_neg h3]
              exact ⟨hf, hm⟩

theorem compileEngine_ext (env : Env) (cache_file_name : String) (m : Machine) :
    Ext (buildPathCall m.net.m_max_batchsize) m (compileEngine env cache_file_name m).2 := by
  have h0 : Ext (buildPathCall m.net.m_max_batchsize) m
      (((m.log (Event.setMaxBatchSize m.net.m_max_batchsize)).log
        Event.buildCudaEngine).setEngine env.buildCudaEngine) :=
    ((Ext.log m (show buildPathCall _ (Event.setMaxBatchSize _) from rfl)).trans
      (Ext.log _ (show buildPathCall _ Event.buildCudaEngine from trivial))).trans
      (Ext.setEngine _ _ _)
  unfold compileEngine
  dsimp only
  split
  · exact h0
  · exact h0.trans (((CreateExecuteContext_ext _ _ trivial (fun _ => trivial)).trans
      (Ext.log _ trivial)).trans (Ext.storeFile _ _ _ _))

theorem buildEngine_ext (env : Env) (inputs outputs : List Blob) (cache_file_name : String)
    (m : Machine) :
    Ext (buildPathCall m.net.m_max_batchsize) m
      (buildEngine env inputs outputs cache_file_name m).2 := by
  have h0 : Ext (buildPathCall m.net.m_max_batchsize) m
      (((m.log Event.createInferBuilder).log Event.createNetwork).setBuilder) :=
    ((Ext.log m trivial).trans (Ext.log _ trivial)).trans (Ext.setBuilder _ _)
  have h1 := h0.trans (addInputs_ext env (fun _ _ _ _ => trivial) inputs _)
  unfold buildEngine
  split
  · next fault m1 heq => rw [heq] at h1; exact h1
  · next m1 heq =>
    rw [heq] at h1
    have h2 := h1.trans (addLayers_ext env (fun _ => trivial) m1.net.layers_ 0 m1)
    split
    · next fault m2 heq2 => rw [heq2] at h2; exact h2
    · next m2 heq2 =>
      rw [heq2] at h2
      have h3 := h2.trans (markOutputs_ext (fun _ => trivial) outputs m2)
      split
      · next fault m3 heq3 => rw [heq3] at h3; exact h3
      · next m3 heq3 =>
        rw [heq3] at h3
        have h4 := compileEngine_ext env cache_file_name m3
        rw [h3.1] at h4
        exact h3.trans h4

theorem loadEngine_ext (env : Env) (cache_file_name : String) (m : Machine) :
    Ext (loadPathCall (m.files.lookup cache_file_name)) m
      (loadEngine env cache_file_name m).2 := by
  unfold loadEngine
  split
  · exact Ext.refl _ m
  · next content hc =>
    rw [hc]
    have h0 : Ext (loadPathCall (some content)) m
        ((m.log (Event.deserializeCudaEngine (content.take content.length) content.length
          true)).setEngine (env.deserializeCudaEngine (content.take content.length))) :=
      (Ext.log m (show loadPathCall _ (Event.deserializeCudaEngine _ _ _) from
        ⟨by rw [List.take_length], by rw [List.take_length], rfl⟩)).trans
        (Ext.setEngine _ _ _)
    dsimp only
    split
    · exact h0
    · exact h0.trans (CreateExecuteContext_ext _ _ trivial (fun _ => trivial))

theorem loadEngine_calls (env : Env) (cache_file_name : String) (m : Machine)
    (content : Bytes) (h : m.files.lookup cache_file_name = some content) :
    Event.deserializeCudaEngine content content.length true ∈
      (loadEngine env cache_file_name m).2.trace := by
  unfold loadEngine
  rw [h]
  dsimp only
  rw [List.take_length]
  split
  · simp [Machine.setEngine, Machine.log]
  · simp [CreateExecuteContext, Machine.setContext, Machine.setEngine, Machine.log]

theorem loadEngine_files (env : Env) (cache_file_name : String) (m : Machine) :
    (loadEngine env cache_file_name m).2.files = m.files := by
  unfold loadEngine
  split
  · rfl
  · dsimp only
    split
    · rfl
    · rfl

theorem bindEngine_ext {P : Event → Prop} (d : StatusDecl) (engine : Engine)
    (inputs outputs : List Blob) (file_name : String) (m : Machine)
    (hd : ∀ name, P (Event.deleteExclFile name))
    (hs : ∀ index base, P (Event.storeBinding index base)) :
    Ext P m (bindEngine d engine inputs outputs file_name m).2 :=
  (((Ext.log m (hd _)).trans (Ext.newBindings _ _ _)).trans
    (storeBindings_ext engine hs inputs _)).trans (storeBindings_ext engine hs outputs _)

theorem bindEngine_files (d : StatusDecl) (engine : Engine) (inputs outputs : List Blob)
    (file_name : String) (m : Machine) :
    (bindEngine d engine inputs outputs file_name m).2.files = m.files := by
  unfold bindEngine
  rw [storeBindings_files, storeBindings_files]
  rfl

theorem InitCache_load (d : StatusDecl) (env : Env) (inputs : List Blob) (m : Machine)
    (hready : env.Ready = true) :
    Ext (loadPathCall (m.files.lookup GetCacheFileName)) m (InitCache d env inputs m).2 ∧
    (InitCache d env inputs m).2.files = m.files := by
  have h0 : Ext (loadPathCall (m.files.lookup GetCacheFileName)) m
      (m.log (Event.newExclFile GetCacheFileName)) := Ext.log m trivial
  have h1 := h0.trans (loadEngine_ext env GetCacheFileName _)
  have hf := loadEngine_files env GetCacheFileName (m.log (Event.newExclFile GetCacheFileName))
  unfold InitCache
  simp only [hready, Bool.true_eq_false, if_false]
  split
  · exact ⟨h0, rfl⟩
  · split
    · next fault m1 heq => rw [heq] at h1 hf; exact ⟨h1, hf⟩
    · next m1 heq =>
      rw [heq] at h1 hf
      split
      · exact ⟨h1, hf⟩
      · exact ⟨h1.trans (bindEngine_ext d _ _ _ _ _ (fun _ => trivial) (fun _ _ => trivial)),
          (bindEngine_files d _ _ _ _ _).trans hf⟩

theorem InitCache_load_calls (d : StatusDecl) (env : Env) (inputs : List Blob) (m : Machine)
    (content : Bytes) (hready : env.Ready = true)
    (houtputs : m.manager.GetAllOutputBlobs = d.TNN_OK)
    (h : m.files.lookup GetCacheFileName = some content) :
    Event.deserializeCudaEngine content content.length true ∈
      (InitCache d env inputs m).2.trace := by
  have h1 := loadEngine_calls env GetCacheFileName (m.log (Event.newExclFile GetCacheFileName))
    content h
  unfold InitCache
  simp only [hready, Bool.true_eq_false, if_false, log_manager, houtputs, ne_eq,
    not_true_eq_false]
  split
  · next fault m1 heq => rw [heq] at h1; exact h1
  · next m1 heq =>
    rw [heq] at h1
    split
    · exact h1
    · exact (bindEngine_ext (P := fun _ => True) d _ _ _ _ _ (fun _ => trivial)
        (fun _ _ => trivial)).2.1 _ h1

theorem compileEngine_result (env : Env) (cache_file_name : String) (m : Machine)
    (h : (compileEngine env cache_file_name m).1 = none) :
    ∃ engine, env.buildCudaEngine = some engine ∧
      (compileEngine env cache_file_name m).2.files =
        (cache_file_name, engine.serialized) :: m.files ∧
      (compileEngine env cache_file_name m).2.net.m_trt_engine = some engine := by
  unfold compileEngine at h ⊢
  cases hb : env.buildCudaEngine with
  | none => simp [hb] at h
  | some engine => exact ⟨engine, rfl, rfl, rfl⟩

theorem buildEngine_result (env : Env) (inputs outputs : List Blob) (cache_file_name : String)
    (m : Machine) (h : (buildEngine env inputs outputs cache_file_name m).1 = none) :
    ∃ engine, env.buildCudaEngine = some engine ∧
      (buildEngine env inputs outputs cache_file_name m).2.files =
        (cache_file_name, engine.serialized) :: m.files ∧
      (buildEngine env inputs outputs cache_file_name m).2.net.m_trt_engine = some engine := by
  have h1 := (addInputs_keeps env inputs
    (((m.log Event.createInferBuilder).log Event.createNetwork).setBuilder)).1
  unfold buildEngine at h ⊢
  generalize addInputs env inputs
      (((m.log Event.createInferBuilder).log Event.createNetwork).setBuilder) = r1 at h h1 ⊢
  rcases r1 with ⟨_ | fault, m1⟩
  · dsimp only at h h1 ⊢
    have h2 := (addLayers_keeps env m1.net.layers_ 0 m1).1
    generalize addLayers env m1.net.layers_ 0 m1 = r2 at h h2 ⊢
    rcases r2 with ⟨_ | fault, m2⟩
    · dsimp only at h h2 ⊢
      have h3 := (markOutputs_keeps outputs m2).1
      generalize markOutputs outputs m2 = r3 at h h3 ⊢
      rcases r3 with ⟨_ | fault, m3⟩
      · dsimp only at h h3 ⊢
        obtain ⟨engine, hb, hf, he⟩ := compileEngine_result env cache_file_name m3 h
        refine ⟨engine, hb, ?_, he⟩
        rw [hf, h3, h2, h1]
        rfl
      · cases h
    · cases h
  · cases h

theorem InitCache_build_result (d : StatusDecl) (env : Env) (inputs : List Blob) (m : Machine)
    (status : Int) (hready : env.Ready = false)
    (houtputs : m.manager.GetAllOutputBlobs = d.TNN_OK)
    (h : (InitCache d env inputs m).1 = Outcome.returned status) :
    ∃ engine, env.buildCudaEngine = some engine ∧
      (InitCache d env inputs m).2.files = (GetCacheFileName, engine.serialized) :: m.files := by
  have hres := buildEngine_result env inputs m.manager.output_blobs GetCacheFileName
    (m.log (Event.newExclFile GetCacheFileName))
  unfold InitCache at h ⊢
  simp only [hready, if_true, log_manager, houtputs, ne_eq, not_true_eq_false, if_false]
    at h ⊢
  generalize buildEngine env inputs m.manager.output_blobs GetCacheFileName
      (m.log (Event.newExclFile GetCacheFileName)) = r at h hres ⊢
  rcases r with ⟨_ | fault, m1⟩
  · obtain ⟨engine, hb, hf, he⟩ := hres rfl
    dsimp only at hf he h ⊢
    rw [he] at h ⊢
    exact ⟨engine, hb, (bindEngine_files d _ _ _ _ _).trans hf⟩
  · cases h

theorem InitCache_build (d : StatusDecl) (env : Env) (inputs : List Blob) (m : Machine)
    (hready : env.Ready = false) :
    Ext (buildPathCall m.net.m_max_batchsize) m (InitCache d env inputs m).2 := by
  have h0 : Ext (buildPathCall m.net.m_max_batchsize) m
      (m.log (Event.newExclFile GetCacheFileName)) := Ext.log m trivial
  have h1 := h0.trans (buildEngine_ext env inputs
    (m.log (Event.newExclFile GetCacheFileName)).manager.output_blobs GetCacheFileName _)
  unfold InitCache
  simp only [hready, if_true]
  split
  · exact h0
  · split
    · next fault m1 heq => rw [heq] at h1; exact h1
    · next m1 heq =>
      rw [heq] at h1
      split
      · exact h1
      · exact h1.trans (bindEngine_ext d _ _ _ _ _ (fun _ => trivial) (fun _ _ => trivial))

/-! ## The batch size -/

theorem maxBatchLoop_greatest :
    ∀ (blobs : List Blob) (acc : Int), (∀ blob ∈ blobs, blob.GetBlobDesc.dims ≠ []) →
      ∃ batch, maxBatchLoop blobs acc = some batch ∧ acc ≤ batch ∧
        (∀ blob ∈ blobs, ∀ n, blob.GetBlobDesc.dims.head? = some n → n ≤ batch) ∧
        (batch = acc ∨ ∃ blob ∈ blobs, blob.GetBlobDesc.dims.head? = some batch) := by
  intro blobs
  induction blobs with
  | nil => intro acc _; exact ⟨acc, rfl, le_refl _, by simp, Or.inl rfl⟩
  | cons blob rest ih =>
    intro acc hdims
    have hb := hdims blob (List.mem_cons_self _ _)
    cases hd : blob.GetBlobDesc.dims with
    | nil => exact absurd hd hb
    | cons d0 tail =>
      obtain ⟨batch, hloop, hle, hub, hatt⟩ := ih (if d0 > acc then d0 else acc)
        (fun b hbm => hdims b (List.mem_cons_of_mem _ hbm))
      refine ⟨batch, ?_, ?_, ?_, ?_⟩
      · simp only [maxBatchLoop, hd]; exact hloop
      · split at hle <;> omega
      · intro b hbm n hn
        rcases List.mem_cons.mp hbm with rfl | hbm
        · rw [hd] at hn
          simp only [List.head?_cons, Option.some.injEq] at hn
          subst hn
          split at hle <;> omega
        · exact hub b hbm n hn
      · rcases hatt with hatt | ⟨b, hbm, hbn⟩
        · by_cases hgt : d0 > acc
          · rw [if_pos hgt] at hatt
            right
            exact ⟨blob, List.mem_cons_self _ _, by rw [hd, hatt]; rfl⟩
          · rw [if_neg hgt] at hatt
            exact Or.inl hatt
        · exact Or.inr ⟨b, List.mem_cons_of_mem _ hbm, hbn⟩

theorem Init_of_setup (d : StatusDecl) (env : Env) (net_config : NetworkConfig)
    (interpreter : Interpreter) (m : Machine)
    (h : (InitSetup d env net_config interpreter m).1 = none) :
    Init d env net_config interpreter m =
      InitEngine d env (InitSetup d env net_config interpreter m).2 := by
  unfold Init
  split
  · next status m1 heq => rw [heq] at h; cases h
  · next m1 heq => rw [heq]

theorem InitEngine_of_inputs (d : StatusDecl) (env : Env) (m : Machine) (batch : Int)
    (hinputs : m.manager.GetAllInputBlobs = d.TNN_OK)
    (hloop : maxBatchLoop m.manager.input_blobs 1 = some batch) :
    InitEngine d env m = InitCache d env m.manager.input_blobs (m.setMaxBatchSize batch) := by
  unfold InitEngine
  simp [hinputs, hloop]

theorem InitCache_batch (d : StatusDecl) (env : Env) (inputs : List Blob) (m : Machine) :
    Ext (batchCall m.net.m_max_batchsize) m (InitCache d env inputs m).2 := by
  cases hready : env.Ready with
  | true =>
    refine (InitCache_load d env inputs m hready).1.mono ?_
    intro e he n hn
    subst hn
    exact absurd he id
  | false =>
    refine (InitCache_build d env inputs m hready).mono ?_
    intro e he n hn
    subst hn
    exact he

/-- C1: when `Init` reaches line 69 and the enumeration of the input blobs succeeds, then for
every set of input blobs that have a `dims[0]` (the empty set and zero or negative `dims[0]`
included) the `m_max_batchsize` that `Init` leaves is the greatest element of `1` and the
`dims[0]` of the input blobs, that is `max(1, max dims[0])`; every `setMaxBatchSize` that `Init`
calls is given this value; and every enqueue of `Forward` and of `ForwardAsync` on the object
is given it too, both leaving the fields of the object unchanged. -/
theorem Init_max_batchsize {Callback : Type} (d : StatusDecl) (env : Env)
    (net_config : NetworkConfig) (interpreter : Interpreter) (m : Machine)
    (hsetup : (InitSetup d env net_config interpreter m).1 = none)
    (hinputs : env.blobManager.GetAllInputBlobs = d.TNN_OK)
    (hdims : ∀ blob ∈ env.blobManager.input_blobs, blob.GetBlobDesc.dims ≠ []) :
    IsGreatest (batchCandidates env.blobManager.input_blobs)
      (Init d env net_config interpreter m).2.net.m_max_batchsize ∧
    (∀ n, Event.setMaxBatchSize n ∈ (Init d env net_config interpreter m).2.trace →
      Event.setMaxBatchSize n ∈ m.trace ∨
      n = (Init d env net_config interpreter m).2.net.m_max_batchsize) ∧
    (∀ (env2 : Env) (batch : Int) (bindings : List (Option Nat)) (stream : Nat),
      Event.enqueue batch bindings stream ∈
          (Forward d env2 (Init d env net_config interpreter m).2).2.trace →
      Event.enqueue batch bindings stream ∈ (Init d env net_config interpreter m).2.trace ∨
      batch = (Init d env net_config interpreter m).2.net.m_max_batchsize) ∧
    (∀ (env2 : Env) (call_back : Callback) (batch : Int) (bindings : List (Option Nat))
        (stream : Nat),
      Event.enqueue batch bindings stream ∈
          (ForwardAsync d env2 call_back (Init d env net_config interpreter m).2).2.trace →
      Event.enqueue batch bindings stream ∈ (Init d env net_config interpreter m).2.trace ∨
      batch = (Init d env net_config interpreter m).2.net.m_max_batchsize) ∧
    (∀ (env2 : Env) (call_back : Callback),
      (Forward d env2 (Init d env net_config interpreter m).2).2.net =
          (Init d env net_config interpreter m).2.net ∧
      (ForwardAsync d env2 call_back (Init d env net_config interpreter m).2).2.net =
          (Init d env net_config interpreter m).2.net) := by
  obtain ⟨_, hman⟩ := InitSetup_keeps d env net_config interpreter m hsetup
  obtain ⟨batch, hloop, hle, hub, hatt⟩ :=
    maxBatchLoop_greatest env.blobManager.input_blobs 1 hdims
  have hinit : Init d env net_config interpreter m =
      InitCache d env env.blobManager.input_blobs
        ((InitSetup d env net_config interpreter m).2.setMaxBatchSize batch) := by
    rw [Init_of_setup d env net_config interpreter m hsetup,
      InitEngine_of_inputs d env _ batch (by rw [hman]; exact hinputs)
        (by rw [hman]; exact hloop), hman]
  have hext := InitCache_batch d env env.blobManager.input_blobs
    ((InitSetup d env net_config interpreter m).2.setMaxBatchSize batch)
  rw [← hinit] at hext
  have hbatch : (Init d env net_config interpreter m).2.net.m_max_batchsize = batch := hext.1
  have hsetupExt := InitSetup_ext d env net_config interpreter m
  refine ⟨?_, ?_, ?_, ?_, ?_⟩
  · rw [hbatch]
    constructor
    · rcases hatt with hatt | ⟨blob, hb, hn⟩
      · rw [hatt]; exact Set.mem_insert _ _
      · exact Set.mem_insert_of_mem _ ⟨blob, hb, hn⟩
    · intro n hn
      rcases hn with hn | ⟨blob, hb, hn⟩
      · rw [hn]; exact hle
      · exact hub blob hb n hn
  · intro n hn
    rcases hext.2.2 _ hn with h | h
    · left
      rcases hsetupExt.2.2 _ h with h2 | h2
      · exact h2
      · exact absurd h2 id
    · right; rw [hbatch]; exact h n rfl
  · intro env2 b t s h
    unfold Forward at h
    dsimp only at h
    split at h
    · simp only [log_trace, List.mem_append, List.mem_singleton] at h
      rcases h with h | h
      · exact Or.inl h
      · right; cases h; rfl
    · split at h <;>
      · simp only [log_trace, log_net, List.mem_append, List.mem_singleton] at h
        rcases h with (h | h) | h
        · exact Or.inl h
        · right; cases h; rfl
        · cases h
  · intro env2 cb b t s h
    unfold ForwardAsync at h
    dsimp only at h
    split at h <;>
    · simp only [log_trace, List.mem_append, List.mem_singleton] at h
      rcases h with h | h
      · exact Or.inl h
      · right; cases h; rfl
  · intro env2 cb
    unfold Forward ForwardAsync
    dsimp only
    refine ⟨?_, ?_⟩
    · split
      · rfl
      · split <;> rfl
    · split <;> rfl

/-- C1 at a network whose inputs have the batches `-2` and `4`: the batch size is `4`. -/
theorem Init_max_batchsize_witness :
    IsGreatest (batchCandidates batchEnv.blobManager.input_blobs)
      (Init tnnDecl batchEnv cudaConfig reluInterpreter cachedMachine).2.net.m_max_batchsize ∧
    (Init tnnDecl batchEnv cudaConfig reluInterpreter cachedMachine).2.net.m_max_batchsize = 4 :=
  ⟨(@Init_max_batchsize Unit tnnDecl batchEnv cudaConfig reluInterpreter cachedMachine
      (by decide) (by decide) (by decide)).1, by decide⟩

/-! ## The cache file -/

theorem Init_of_reach (d : StatusDecl) (env : Env) (net_config : NetworkConfig)
    (interpreter : Interpreter) (m : Machine)
    (h : ReachesCacheDecision d env net_config interpreter m) :
    ∃ batch, Init d env net_config interpreter m =
      InitCache d env env.blobManager.input_blobs
        ((InitSetup d env net_config interpreter m).2.setMaxBatchSize batch) := by
  obtain ⟨hsetup, hinputs, hloop, _⟩ := h
  obtain ⟨_, hman⟩ := InitSetup_keeps d env net_config interpreter m hsetup
  cases hb : maxBatchLoop env.blobManager.input_blobs 1 with
  | none => exact absurd hb hloop
  | some batch =>
    refine ⟨batch, ?_⟩
    rw [Init_of_setup d env net_config interpreter m hsetup,
      InitEngine_of_inputs d env _ batch (by rw [hman]; exact hinputs)
        (by rw [hman]; exact hb), hman]

/-- C8: when an `Init` that reaches the test of `Ready()` finds it false and returns `TNN_OK`,
it has built an engine, and the cache file named by `GetCacheFileName()` then holds exactly the
bytes `serialize()` returned for it. An `Init` that then reaches the test over a disk with that
cache file and finds `Ready()` true calls `deserializeCudaEngine` with those bytes, their number
as size, and the plugin factory, and every `deserializeCudaEngine` it calls has these
arguments; none of its calls creates a builder, is an `AddToNetwork` or writes a file, and it
leaves the files as they were. -/
theorem cache_round_trip (d : StatusDecl) (env1 env2 : Env) (net_config1 net_config2 : NetworkConfig)
    (interpreter1 interpreter2 : Interpreter) (m1 m2 : Machine)
    (hready1 : env1.Ready = false)
    (hreach1 : ReachesCacheDecision d env1 net_config1 interpreter1 m1)
    (hret1 : (Init d env1 net_config1 interpreter1 m1).1 = Outcome.returned d.TNN_OK)
    (hready2 : env2.Ready = true)
    (hreach2 : ReachesCacheDecision d env2 net_config2 interpreter2 m2)
    (hfile : m2.files.lookup GetCacheFileName =
      (Init d env1 net_config1 interpreter1 m1).2.files.lookup GetCacheFileName) :
    ∃ engine, env1.buildCudaEngine = some engine ∧
      (Init d env1 net_config1 interpreter1 m1).2.files.lookup GetCacheFileName =
        some engine.serialized ∧
      Event.deserializeCudaEngine engine.serialized engine.serialized.length true ∈
        (Init d env2 net_config2 interpreter2 m2).2.trace ∧
      (∀ e ∈ (Init d env2 net_config2 interpreter2 m2).2.trace, e ∈ m2.trace ∨
        (¬ freshBuildCall e ∧
          ∀ model_stream size pluginFactory,
            e = Event.deserializeCudaEngine model_stream size pluginFactory →
            model_stream = engine.serialized ∧ size = engine.serialized.length ∧
            pluginFactory = true)) ∧
      (Init d env2 net_config2 interpreter2 m2).2.files = m2.files := by
  obtain ⟨batch1, hinit1⟩ := Init_of_reach d env1 net_config1 interpreter1 m1 hreach1
  obtain ⟨batch2, hinit2⟩ := Init_of_reach d env2 net_config2 interpreter2 m2 hreach2
  obtain ⟨hf1, hman1⟩ := InitSetup_keeps d env1 net_config1 interpreter1 m1 hreach1.1
  obtain ⟨hf2, hman2⟩ := InitSetup_keeps d env2 net_config2 interpreter2 m2 hreach2.1
  rw [hinit1] at hret1 hfile ⊢
  obtain ⟨engine, hbuilt, hfiles⟩ := InitCache_build_result d env1 _ _ _ hready1
    (by show (InitSetup d env1 net_config1 interpreter1 m1).2.manager.GetAllOutputBlobs = _
        rw [hman1]; exact hreach1.2.2.2) hret1
  have hcache : List.lookup GetCacheFileName
      (InitCache d env1 env1.blobManager.input_blobs
        ((InitSetup d env1 net_config1 interpreter1 m1).2.setMaxBatchSize batch1)).2.files =
      some engine.serialized := by
    rw [hfiles]; simp [List.lookup]
  rw [hcache] at hfile
  have hfile2 : List.lookup GetCacheFileName
      ((InitSetup d env2 net_config2 interpreter2 m2).2.setMaxBatchSize batch2).files =
      some engine.serialized := by
    show List.lookup GetCacheFileName (InitSetup d env2 net_config2 interpreter2 m2).2.files = _
    rw [hf2]; exact hfile
  obtain ⟨hext, hkeep⟩ := InitCache_load d env2 env2.blobManager.input_blobs
    ((InitSetup d env2 net_config2 interpreter2 m2).2.setMaxBatchSize batch2) hready2
  rw [hfile2] at hext
  have hsetup := InitSetup_ext d env2 net_config2 interpreter2 m2
  refine ⟨engine, hbuilt, hcache, ?_, ?_, ?_⟩
  · rw [hinit2]
    exact InitCache_load_calls d env2 _ _ _ hready2
      (by show (InitSetup d env2 net_config2 interpreter2 m2).2.manager.GetAllOutputBlobs = _
          rw [hman2]; exact hreach2.2.2.2) hfile2
  · rw [hinit2]
    intro e he
    rcases hext.2.2 e he with h | h
    · rcases hsetup.2.2 e h with h2 | h2
      · exact Or.inl h2
      · right
        cases e <;> first | exact absurd h2 id | exact ⟨id, fun _ _ _ hx => by cases hx⟩
    · right
      cases e with
      | deserializeCudaEngine model_stream size pluginFactory =>
        refine ⟨id, fun _ _ _ hx => ?_⟩
        cases hx
        obtain ⟨h1, h2, h3⟩ := h
        cases h1
        exact ⟨rfl, h2, h3⟩
      | _ => first | exact absurd h id | exact ⟨id, fun _ _ _ hx => by cases hx⟩
  · rw [hinit2, hkeep]
    exact hf2

/-- C8 at the network `x → ReLU → y`: the engine built and cached by one `Init` is handed,
byte for byte, to `deserializeCudaEngine` by the next. -/
theorem cache_round_trip_witness :
    Event.deserializeCudaEngine reluEngine.serialized reluEngine.serialized.length true ∈
      (Init tnnDecl cachedEnv cudaConfig reluInterpreter cachedMachine).2.trace := by
  obtain ⟨engine, hbuilt, _, hcall, _⟩ := cache_round_trip tnnDecl staleOutputEnv cachedEnv
    cudaConfig cudaConfig reluInterpreter reluInterpreter freshMachine cachedMachine
    (by decide) (by unfold ReachesCacheDecision; decide) (by decide) (by decide)
    (by unfold ReachesCacheDecision; decide) (by decide)
  cases hbuilt
  exact hcall

/-! ## The lock and the binding table -/

/-- C4, evaluated where `GetAllOutputBlobs` fails: `Init` has constructed the `ExclFile` for
`.cache`, returns the error of `GetAllOutputBlobs`, and has not deleted the `ExclFile`; on the
path that returns `TNN_OK` the `ExclFile` is deleted. -/
theorem Init_leaves_lock_when_outputs_fail :
    noOutputsEnv.blobManager.GetAllOutputBlobs = 0x1000 ∧
    (Init tnnDecl noOutputsEnv cudaConfig reluInterpreter freshMachine).1 =
        Outcome.returned 0x1000 ∧
    Event.newExclFile ".cache" ∈
        (Init tnnDecl noOutputsEnv cudaConfig reluInterpreter freshMachine).2.trace ∧
    Event.deleteExclFile ".cache" ∉
        (Init tnnDecl noOutputsEnv cudaConfig reluInterpreter freshMachine).2.trace ∧
    (Init tnnDecl cachedEnv cudaConfig reluInterpreter cachedMachine).1 =
        Outcome.returned tnnDecl.TNN_OK ∧
    Event.deleteExclFile ".cache" ∈
        (Init tnnDecl cachedEnv cudaConfig reluInterpreter cachedMachine).2.trace := by
  decide

/-- C2, evaluated where `.cache` holds the engine of another model, which has no binding named
`x` or `y`: `getBindingIndex` answers `-1` for both, `Init` stores both handles at index `-1`,
outside the two entries of the binding table, which stay unwritten, and returns `TNN_OK`. -/
theorem Init_stores_unbound_name_out_of_range :
    otherEngine.getBindingIndex "x" = -1 ∧ otherEngine.getBindingIndex "y" = -1 ∧
    otherEngine.getNbBindings = 2 ∧
    (Init tnnDecl otherCacheEnv cudaConfig reluInterpreter otherCacheMachine).1 =
        Outcome.returned tnnDecl.TNN_OK ∧
    Event.storeBinding (-1) 100 ∈
        (Init tnnDecl otherCacheEnv cudaConfig reluInterpreter otherCacheMachine).2.trace ∧
    Event.storeBinding (-1) 200 ∈
        (Init tnnDecl otherCacheEnv cudaConfig reluInterpreter otherCacheMachine).2.trace ∧
    (Init tnnDecl otherCacheEnv cudaConfig reluInterpreter
        otherCacheMachine).2.net.m_trt_bindings = [none, none] := by
  decide

/-! ## Layer construction -/

/-- C5, evaluated on a layer that lists the output name `missing`, for which the blob manager
returns no blob. `InitLayers` does not test the lookup: whatever the builder's `Init` answers, it
is called with the null output blob. When it answers `TNN_OK`, `InitLayers` registers the
builder and returns `TNN_OK`, and `Init` then stops on the null pointer in the layer loop of the
fresh build instead of returning a status. The lookup of the builder itself is tested: without
a builder for the layer type `InitLayers` returns `TNNERR_PARAM_ERR`. -/
theorem InitLayers_initialises_builder_with_null_blob :
    managedMachine.manager.GetBlob "missing" = none ∧
    none ∈ danglingLayer.outputs ∧
    (∀ layerInit : LayerBuilder → Int,
      Event.layerInit danglingLayer ∈
        (InitLayers tnnDecl { reluEnv with layerInit := layerInit } danglingGraph
          { resource_map := [] } managedMachine).2.trace) ∧
    (InitLayers tnnDecl reluEnv danglingGraph { resource_map := [] } managedMachine).1 =
        tnnDecl.TNN_OK ∧
    (InitLayers tnnDecl reluEnv danglingGraph { resource_map := [] }
        managedMachine).2.net.layers_ = [danglingLayer] ∧
    (Init tnnDecl reluEnv cudaConfig danglingInterpreter freshMachine).1 =
        Outcome.stopped Fault.nullPointer ∧
    (InitLayers tnnDecl noBuilderEnv danglingGraph { resource_map := [] } managedMachine).1 =
        tnnDecl.TNNERR_PARAM_ERR := by
  refine ⟨by decide, by decide, ?_, by decide, by decide, by decide, by decide⟩
  intro layerInit
  have hlayer : makeLayer { resource_map := [] } managedMachine.manager
      { type := 1, name := "relu", inputs := ["x"], outputs := ["missing"] } =
      danglingLayer := by decide
  simp only [InitLayers, danglingGraph, InitLayersLoop, reluEnv, hlayer]
  by_cases h : layerInit danglingLayer = tnnDecl.TNN_OK
  · simp [h, Machine.pushLayer, Machine.log]
  · simp [h, Machine.log]

/-! ## The blob registry during the fresh build -/

theorem GetBlob_ReplaceBlob (m : Machine) (name : String) (blob : Blob) (n : String) :
    (m.ReplaceBlob name blob).manager.GetBlob n =
      if n = name then some blob else m.manager.GetBlob n := by
  by_cases h : n = name
  · simp [Machine.ReplaceBlob, BlobManager.ReplaceBlob, BlobManager.GetBlob, List.lookup, h]
  · have hne : (n == name) = false := by simpa using h
    simp [Machine.ReplaceBlob, BlobManager.ReplaceBlob, BlobManager.GetBlob, List.lookup, h,
      hne]

theorem wrapOutputs_lookup (env : Env) (cur_trt_layer : ILayer) :
    ∀ (outputs : List (Option Blob)) (out_id : Nat) (m m2 : Machine),
      wrapOutputs env cur_trt_layer outputs out_id m = (none, m2) →
      (∀ output ∈ outputs, output ≠ none) ∧
      (∀ n, (∀ blob, some blob ∈ outputs → blob.GetBlobDesc.name ≠ n) →
        m2.manager.GetBlob n = m.manager.GetBlob n) ∧
      (∀ opre blob opost, outputs = opre ++ some blob :: opost →
        (∀ later, some later ∈ opost → later.GetBlobDesc.name ≠ blob.GetBlobDesc.name) →
        m2.manager.GetBlob blob.GetBlobDesc.name =
          some (Blob.foreign blob
            (some (env.getOutput cur_trt_layer (out_id + opre.length))))) := by
  intro outputs
  induction outputs with
  | nil =>
    intro out_id m m2 h
    simp only [wrapOutputs, Prod.mk.injEq, true_and] at h
    subst h
    exact ⟨by simp, fun _ _ => rfl, fun opre blob opost h => by simp at h⟩
  | cons output rest ih =>
    intro out_id m m2 h
    cases output with
    | none => simp [wrapOutputs] at h
    | some first =>
      simp only [wrapOutputs] at h
      obtain ⟨ih1, ih2, ih3⟩ := ih _ _ _ h
      refine ⟨?_, ?_, ?_⟩
      · intro o ho
        rcases List.mem_cons.mp ho with rfl | ho
        · simp
        · exact ih1 o ho
      · intro n hn
        rw [ih2 n (fun b hb => hn b (List.mem_cons_of_mem _ hb)), GetBlob_ReplaceBlob,
          if_neg (fun heq => hn first (List.mem_cons_self _ _) heq.symm)]
      · intro opre blob opost hsplit hlater
        cases opre with
        | nil =>
          simp only [List.nil_append, List.cons.injEq, Option.some.injEq] at hsplit
          obtain ⟨rfl, rfl⟩ := hsplit
          rw [ih2 _ hlater, GetBlob_ReplaceBlob, if_pos rfl]
          rfl
        | cons o opre2 =>
          simp only [List.cons_append, List.cons.injEq] at hsplit
          obtain ⟨_, hrest⟩ := hsplit
          rw [ih3 opre2 blob opost hrest hlater]
          simp only [List.length_cons]
          rw [Nat.add_assoc, Nat.add_comm 1]

theorem addLayers_lookup (env : Env) :
    ∀ (layers : List LayerBuilder) (layer_id : Nat) (m m2 : Machine),
      addLayers env layers layer_id m = (none, m2) →
      (∀ cur_layer ∈ layers, ∀ output ∈ cur_layer.outputs, output ≠ none) ∧
      (∀ n, (∀ cur_layer ∈ layers, ∀ blob, some blob ∈ cur_layer.outputs →
          blob.GetBlobDesc.name ≠ n) →
        m2.manager.GetBlob n = m.manager.GetBlob n) ∧
      (∀ pre cur_layer post opre blob opost, layers = pre ++ cur_layer :: post →
        cur_layer.outputs = opre ++ some blob :: opost →
        (∀ later, some later ∈ opost → later.GetBlobDesc.name ≠ blob.GetBlobDesc.name) →
        (∀ next ∈ post, ∀ later, some later ∈ next.outputs →
          later.GetBlobDesc.name ≠ blob.GetBlobDesc.name) →
        m2.manager.GetBlob blob.GetBlobDesc.name =
          some (Blob.foreign blob (some (env.getOutput
            (env.AddToNetwork (layer_id + pre.length) cur_layer) opre.length)))) := by
  intro layers
  induction layers with
  | nil =>
    intro layer_id m m2 h
    simp only [addLayers, Prod.mk.injEq, true_and] at h
    subst h
    exact ⟨by simp, fun _ _ => rfl, fun pre c post _ _ _ h => by simp at h⟩
  | cons first rest ih =>
    intro layer_id m m2 h
    unfold addLayers at h
    dsimp only at h
    have hw := wrapOutputs_lookup env (env.AddToNetwork layer_id first) first.outputs 0
      (m.log (Event.AddToNetwork layer_id))
    generalize wrapOutputs env (env.AddToNetwork layer_id first) first.outputs 0
      (m.log (Event.AddToNetwork layer_id)) = r at h hw
    rcases r with ⟨_ | fault, m1⟩
    · dsimp only at h
      obtain ⟨hw1, hw2, hw3⟩ := hw m1 rfl
      obtain ⟨ih1, ih2, ih3⟩ := ih _ _ _ h
      refine ⟨?_, ?_, ?_⟩
      · intro c hc
        rcases List.mem_cons.mp hc with rfl | hc
        · exact hw1
        · exact ih1 c hc
      · intro n hn
        rw [ih2 n (fun c hc => hn c (List.mem_cons_of_mem _ hc)),
          hw2 n (hn first (List.mem_cons_self _ _))]
        rfl
      · intro pre c post opre blob opost hsplit hout hlater hnext
        cases pre with
        | nil =>
          simp only [List.nil_append, List.cons.injEq] at hsplit
          obtain ⟨rfl, rfl⟩ := hsplit
          rw [ih2 _ hnext, hw3 opre blob opost hout hlater]
          simp
        | cons p pre2 =>
          simp only [List.cons_append, List.cons.injEq] at hsplit
          obtain ⟨_, hrest⟩ := hsplit
          rw [ih3 pre2 c post opre blob opost hrest hout hlater hnext]
          simp only [List.length_cons]
          rw [Nat.add_assoc, Nat.add_comm 1]
    · simp at h

theorem addInputs_lookup (env : Env) :
    ∀ (inputs : List Blob) (m m2 : Machine), addInputs env inputs m = (none, m2) →
      (∀ n, (∀ blob ∈ inputs, blob.GetBlobDesc.name ≠ n) →
        m2.manager.GetBlob n = m.manager.GetBlob n) ∧
      (∀ input ∈ inputs, ∃ blob ∈ inputs,
        blob.GetBlobDesc.name = input.GetBlobDesc.name ∧
        m2.manager.GetBlob input.GetBlobDesc.name =
          some (Blob.foreign blob (some (env.addInput input.GetBlobDesc.name)))) := by
  intro inputs
  induction inputs with
  | nil =>
    intro m m2 h
    simp only [addInputs, Prod.mk.injEq, true_and] at h
    subst h
    exact ⟨fun _ _ => rfl, by simp⟩
  | cons first rest ih =>
    intro m m2 h
    unfold addInputs at h
    split at h
    · obtain ⟨ih1, ih2⟩ := ih _ _ h
      refine ⟨?_, ?_⟩
      · intro n hn
        rw [ih1 n (fun b hb => hn b (List.mem_cons_of_mem _ hb)), GetBlob_ReplaceBlob,
          if_neg (fun heq => hn first (List.mem_cons_self _ _) heq.symm)]
        rfl
      · intro input hinput
        by_cases hlater : ∃ blob ∈ rest, blob.GetBlobDesc.name = input.GetBlobDesc.name
        · obtain ⟨blob, hb, hname⟩ := hlater
          obtain ⟨blob2, hb2, hname2, hget⟩ := ih2 blob hb
          refine ⟨blob2, List.mem_cons_of_mem _ hb2, hname2.trans hname, ?_⟩
          rw [← hname]; exact hget
        · have hfirst : input = first := by
            rcases List.mem_cons.mp hinput with h | h
            · exact h
            · exact absurd ⟨input, h, rfl⟩ hlater
          subst hfirst
          refine ⟨input, List.mem_cons_self _ _, rfl, ?_⟩
          rw [ih1 _ (fun b hb hname => hlater ⟨b, hb, hname⟩), GetBlob_ReplaceBlob, if_pos rfl]
    · cases h

/-- C9, as stated, fails on `x → ReLU → x`, where the input name `x` is also the output of the
layer: both loops run to their end, and the registry then holds under `x` the ForeignBlob with
the tensor `getOutput(0)` of the ReLU node, which is not the tensor `addInput` returned. -/
theorem input_name_rebound_by_layer :
    (addInputs reluEnv [blobX] managedMachine).1 = none ∧
    (addLayers reluEnv (inplaceGraph.layers.map (makeLayer { resource_map := [] } reluManager))
        0 (addInputs reluEnv [blobX] managedMachine).2).1 = none ∧
    (addLayers reluEnv (inplaceGraph.layers.map (makeLayer { resource_map := [] } reluManager))
        0 (addInputs reluEnv [blobX] managedMachine).2).2.manager.GetBlob "x" =
      some (Blob.foreign blobX (some 2000)) ∧
    reluEnv.addInput "x" = 10 := by
  decide

theorem makeLayer_output_name (net_resource : NetResource) (blob_manager : BlobManager)
    (hkey : ∀ n blob, blob_manager.GetBlob n = some blob → blob.GetBlobDesc.name = n)
    (layer_info : LayerInfo) (blob : Blob)
    (h : some blob ∈ (makeLayer net_resource blob_manager layer_info).outputs) :
    blob.GetBlobDesc.name ∈ layer_info.outputs := by
  simp only [makeLayer, List.mem_map] at h
  obtain ⟨n, hn, hget⟩ := h
  rw [hkey n blob hget]
  exact hn

/-- C9, amended: let the registry hold every blob under the blob's own name, and let the input
loop and the layer loop of the fresh build run to their end over the input blobs and over the
builders `InitLayers` made for the layers. Then for every network input name that no layer
lists as an output, the registry returns a ForeignBlob, decorating an input blob of that name,
whose tensor is the one `addInput` returned for the name; and for every name that a layer lists
as an output, the registry returns a ForeignBlob, decorating the blob the registry held under
the name, whose tensor is `getOutput(out_id)` of the node emitted by the layer and position
that list the name last. -/
theorem build_rebinds_names (env : Env) (net_resource : NetResource) (graph : List LayerInfo)
    (inputs : List Blob) (m m1 m2 : Machine)
    (hkey : ∀ n blob, m.manager.GetBlob n = some blob → blob.GetBlobDesc.name = n)
    (hinputs : addInputs env inputs m = (none, m1))
    (hlayers : addLayers env (graph.map (makeLayer net_resource m.manager)) 0 m1 = (none, m2)) :
    (∀ input ∈ inputs,
      (∀ layer_info ∈ graph, input.GetBlobDesc.name ∉ layer_info.outputs) →
      ∃ blob ∈ inputs, blob.GetBlobDesc.name = input.GetBlobDesc.name ∧
        m2.manager.GetBlob input.GetBlobDesc.name =
          some (Blob.foreign blob (some (env.addInput input.GetBlobDesc.name)))) ∧
    (∀ pre layer_info post opre n opost, graph = pre ++ layer_info :: post →
      layer_info.outputs = opre ++ n :: opost → n ∉ opost →
      (∀ next ∈ post, n ∉ next.outputs) →
      ∃ blob, m.manager.GetBlob n = some blob ∧
        m2.manager.GetBlob n =
          some (Blob.foreign blob (some (env.getOutput
            (env.AddToNetwork pre.length (makeLayer net_resource m.manager layer_info))
            opre.length)))) := by
  obtain ⟨hall, hkeep, hlast⟩ := addLayers_lookup env _ 0 m1 m2 hlayers
  obtain ⟨_, hin⟩ := addInputs_lookup env inputs m m1 hinputs
  refine ⟨?_, ?_⟩
  · intro input hinput hno
    obtain ⟨blob, hb, hname, hget⟩ := hin input hinput
    refine ⟨blob, hb, hname, ?_⟩
    rw [hkeep, hget]
    intro cur hcur b hbout heq
    obtain ⟨layer_info, hli, rfl⟩ := List.mem_map.mp hcur
    exact hno layer_info hli
      (heq ▸ makeLayer_output_name net_resource m.manager hkey layer_info b hbout)
  · intro pre layer_info post opre n opost hsplit hout hnot hnext
    have hmem : makeLayer net_resource m.manager layer_info ∈
        graph.map (makeLayer net_resource m.manager) :=
      List.mem_map.mpr ⟨layer_info, by rw [hsplit]; simp, rfl⟩
    have houts : (makeLayer net_resource m.manager layer_info).outputs =
        opre.map m.manager.GetBlob ++ m.manager.GetBlob n :: opost.map m.manager.GetBlob := by
      simp [makeLayer, hout]
    cases hget : m.manager.GetBlob n with
    | none =>
      exact absurd hget (hall _ hmem _ (by rw [houts]; simp))
    | some blob =>
      have hname := hkey n blob hget
      rw [hget] at houts
      have h := hlast (pre.map (makeLayer net_resource m.manager))
        (makeLayer net_resource m.manager layer_info)
        (post.map (makeLayer net_resource m.manager)) (opre.map m.manager.GetBlob) blob
        (opost.map m.manager.GetBlob) (by rw [hsplit]; simp) houts
        (by
          intro later hl heq
          obtain ⟨n2, hn2, hget2⟩ := List.mem_map.mp hl
          rw [hkey n2 later hget2, hname] at heq
          exact hnot (heq ▸ hn2))
        (by
          intro next hnx later hl heq
          obtain ⟨l, hlp, rfl⟩ := List.mem_map.mp hnx
          have := makeLayer_output_name net_resource m.manager hkey l later hl
          rw [heq, hname] at this
          exact hnext l hlp this)
      rw [hname] at h
      refine ⟨blob, rfl, ?_⟩
      rw [h]
      simp

theorem reluManager_keyed (n : String) (blob : Blob)
    (h : managedMachine.manager.GetBlob n = some blob) : blob.GetBlobDesc.name = n := by
  simp only [managedMachine, reluManager, BlobManager.GetBlob, List.lookup] at h
  split at h
  · next heq =>
    cases h
    exact (eq_of_beq heq).symm
  · split at h
    · next heq =>
      cases h
      exact (eq_of_beq heq).symm
    · cases h

/-- C9 at the network `x → ReLU → y`: `x` is rebound to the tensor of `addInput`, `y` to the
output `0` of the ReLU node. -/
theorem build_rebinds_names_witness :
    (∃ blob ∈ [blobX], blob.GetBlobDesc.name = blobX.GetBlobDesc.name ∧
      (addLayers reluEnv (reluGraph.layers.map (makeLayer { resource_map := [] } reluManager))
          0 (addInputs reluEnv [blobX] managedMachine).2).2.manager.GetBlob
        blobX.GetBlobDesc.name =
        some (Blob.foreign blob (some (reluEnv.addInput blobX.GetBlobDesc.name)))) ∧
    (∃ blob, managedMachine.manager.GetBlob "y" = some blob ∧
      (addLayers reluEnv (reluGraph.layers.map (makeLayer { resource_map := [] } reluManager))
          0 (addInputs reluEnv [blobX] managedMachine).2).2.manager.GetBlob "y" =
        some (Blob.foreign blob (some (reluEnv.getOutput (reluEnv.AddToNetwork 0
          (makeLayer { resource_map := [] } reluManager
            { type := 1, name := "relu", inputs := ["x"], outputs := ["y"] })) 0)))) :=
  have h := build_rebinds_names reluEnv { resource_map := [] } reluGraph.layers [blobX]
    managedMachine (addInputs reluEnv [blobX] managedMachine).2
    (addLayers reluEnv (reluGraph.layers.map (makeLayer { resource_map := [] } reluManager))
      0 (addInputs reluEnv [blobX] managedMachine).2).2
    reluManager_keyed (by decide) (by decide)
  ⟨h.1 blobX (by decide) (by decide),
    h.2 [] { type := 1, name := "relu", inputs := ["x"], outputs := ["y"] } [] [] "y" []
      rfl rfl (by decide) (by decide)⟩

/-- C10, evaluated on the fresh build of `x → ReLU → y`: after the layer loop the registry holds
under `y` a ForeignBlob with the tensor `getOutput(0)` of the ReLU node, but the output loop
reads the blob of the map filled before the replacements, which is no ForeignBlob: `Init` stops
on the null pointer and `markOutput` is never called. When that map already holds a ForeignBlob
for `y`, with tensor `55`, `markOutput` is called on `55`, not on the tensor of the registry. -/
theorem Init_marks_from_captured_outputs :
    (Init tnnDecl reluEnv cudaConfig reluInterpreter freshMachine).1 =
        Outcome.stopped Fault.nullPointer ∧
    (Init tnnDecl reluEnv cudaConfig reluInterpreter freshMachine).2.manager.GetBlob "y" =
        some (Blob.foreign blobY (some (reluEnv.getOutput (reluEnv.AddToNetwork 0
          (makeLayer { resource_map := [] } reluManager
            { type := 1, name := "relu", inputs := ["x"], outputs := ["y"] })) 0))) ∧
    (Init tnnDecl reluEnv cudaConfig reluInterpreter freshMachine).2.trace.any
        Event.isMarkOutput = false ∧
    (Init tnnDecl staleOutputEnv cudaConfig reluInterpreter freshMachine).2.manager.GetBlob "y" =
        some (Blob.foreign blobY (some 2000)) ∧
    (Init tnnDecl staleOutputEnv cudaConfig reluInterpreter freshMachine).2.trace.filter
        Event.isMarkOutput = [Event.markOutput 55] := by
  decide

end TNN
